import Mathlib

/-! # Distributed payment processing: the transaction lifecycle and the reconciliation engine

A shallow embedding of
* `src/server/controller/transaction.controller.js` (createTransaction, getTransactions,
  cancelTransaction),
* `src/server/worker/reconciliation.worker.js` (the queue's process handler, its "failed"
  handler, logReconciliationAttempt, updateTransactionStatus, scheduleReconciliation),
* `src/server/utils/transaction.utils.js` and `src/server/services/email.service.js`.

Conventions of the embedding.
* The store (the `transactions`, `users` and `reconciliation_attempts` tables) is explicit state;
  every statement sent to it, every processor call, every mail handed to the transport and every
  job added to the queue is appended to a chronological trace.
* The payment processor, the mail transport and the queue's `add` are oracles (`Env`): each call
  either returns a value or raises an error message.
* The store itself is available: its statements do not raise.  Handlers run one at a time.
* JavaScript numbers are exact integers, `none` standing for `NaN`; the rounding of doubles above
  2^53 and fractional JSON numbers are outside the embedding.
* Statuses are the strings the source compares.
* The queue library is not part of the repository: its retry loop is modelled in `runJob` as
  the worker relies on it (a "failed" event after every failed attempt, `attemptsMade` counted).
-/

namespace Payments

/-! ## JavaScript values and the built-ins the handlers use -/

/-- A JSON value as it arrives in a request body or query string. -/
inductive JsVal where
  | undefined
  | null
  | bool (b : Bool)
  | num (i : Int)
  | str (s : String)
  deriving DecidableEq, Repr

/-- White space and line terminators skipped by `parseInt` and removed by `trim`. -/
def isWhiteSpace (c : Char) : Bool :=
  c.toNat = 0x9 || c.toNat = 0xA || c.toNat = 0xB || c.toNat = 0xC || c.toNat = 0xD ||
  c.toNat = 0x20 || c.toNat = 0xA0 || c.toNat = 0x1680 ||
  (0x2000 ≤ c.toNat && c.toNat ≤ 0x200A) ||
  c.toNat = 0x2028 || c.toNat = 0x2029 || c.toNat = 0x202F || c.toNat = 0x205F ||
  c.toNat = 0x3000 || c.toNat = 0xFEFF

/-- Value of a character as a digit of the given radix (10 or 16), if it is one. -/
def digitValue (radix : Nat) (c : Char) : Option Nat :=
  if 48 ≤ c.toNat ∧ c.toNat ≤ 57 then some (c.toNat - 48)
  else if radix = 16 ∧ 97 ≤ c.toNat ∧ c.toNat ≤ 102 then some (c.toNat - 87)
  else if radix = 16 ∧ 65 ≤ c.toNat ∧ c.toNat ≤ 70 then some (c.toNat - 55)
  else none

/-- The digits at the front of a character list, up to the first character that is no digit. -/
def leadingDigits (radix : Nat) : List Char → List Nat
  | [] => []
  | c :: cs =>
    match digitValue radix c with
    | some d => d :: leadingDigits radix cs
    | none => []

/-- The built-in `Number.parseInt` on a string, without a radix argument: leading white space is skipped, a
sign is read, a `0x` mark selects radix 16, then the longest run of digits is read and whatever
follows is ignored.  `none` is `NaN`. -/
def parseIntString (s : String) : Option Int :=
  let trimmed := s.data.dropWhile isWhiteSpace
  let signed : Bool × List Char :=
    match trimmed with
    | '-' :: r => (true, r)
    | '+' :: r => (false, r)
    | r => (false, r)
  let based : Nat × List Char :=
    match signed.2 with
    | '0' :: 'x' :: r => (16, r)
    | '0' :: 'X' :: r => (16, r)
    | r => (10, r)
  match leadingDigits based.1 based.2 with
  | [] => none
  | ds =>
    let magnitude : Nat := ds.foldl (fun acc d => acc * based.1 + d) 0
    some (if signed.1 then - (magnitude : Int) else (magnitude : Int))

/-- The call `Number.parseInt(v)`: the argument is first converted to a string.  The strings of
`undefined`, `null`, `true` and `false` start with no digit, an integer number prints as its
decimal digits. -/
def parseInt : JsVal → Option Int
  | .undefined => none
  | .null => none
  | .bool _ => none
  | .num i => some i
  | .str s => parseIntString s

/-- The method `String.prototype.trim`. -/
def trim (s : String) : String :=
  String.mk ((((s.data.dropWhile isWhiteSpace).reverse).dropWhile isWhiteSpace).reverse)

/-- The method `String.prototype.toLowerCase` (on the ASCII letters). -/
def toLowerCase (s : String) : String :=
  String.mk (s.data.map Char.toLower)

/-- The conversion `typeof v === "string" ? f(v) : null`. -/
def stringOrNull (f : String → String) : JsVal → Option String
  | .str s => some (f s)
  | _ => none

/-- Truthiness of a nullable string: `null` and the empty string are falsy. -/
def truthy : Option String → Bool
  | some s => s != ""
  | none => false

/-- The built-ins `Math.max(a, b)` and `Math.min(a, b)`: `NaN` if either argument is `NaN`. -/
def mathMax (a b : Option Int) : Option Int :=
  match a, b with
  | some x, some y => some (max x y)
  | _, _ => none

/-- See `mathMax`. -/
def mathMin (a b : Option Int) : Option Int :=
  match a, b with
  | some x, some y => some (min x y)
  | _, _ => none

/-! ## Data model -/

/-- A row of the `transactions` table. -/
structure Transaction where
  transaction_id : Nat
  transaction_uuid : String
  amount_cents : Int
  description : Option String
  currency : String
  sender_user_id : Int
  receiver_user_id : Int
  idempotency_key : String
  status : String
  stripe_intent_id : Option String
  error_message : Option String
  created_at : Int
  updated_at : Int
  deriving DecidableEq, Repr

/-- A row of the `users` table, as far as the mail query reads it. -/
structure User where
  user_id : Int
  name : String
  email : String
  deriving DecidableEq, Repr

/-- A row of the `reconciliation_attempts` table. -/
structure ReconciliationAttempt where
  transaction_id : Nat
  stripe_status : Option String
  our_status_before : Option String
  our_status_after : Option String
  error_message : Option String
  checked_at : Int
  deriving DecidableEq, Repr

/-- The object `getTransactionDetailsForEmail` returns.  The amount and the date are kept as
stored; their rendering as text is not modelled. -/
structure EmailDetails where
  transactionId : String
  amount_cents : Int
  currency : String
  status : String
  date : Int
  userName : String
  email : String
  receiverName : String
  deriving DecidableEq, Repr

/-- The options object `scheduleReconciliation` passes to `reconciliationQueue.add`. -/
structure JobOptions where
  attempts : Nat
  backoffType : String
  backoffDelay : Nat
  removeOnComplete : Bool
  removeOnFail : Bool
  deriving DecidableEq, Repr

/-- A job of the reconciliation queue. -/
structure Job where
  transaction_id : Nat
  opts : JobOptions
  attemptsMade : Nat
  deriving DecidableEq, Repr

/-- The argument of `stripe.paymentIntents.create`. -/
structure CreateIntentParams where
  amount : Int
  currency : String
  description : String
  metadata_transaction_id : String
  metadata_sender_user_id : String
  metadata_receiver_user_id : String
  deriving DecidableEq, Repr

/-- What the handlers read of a payment intent returned by the processor.
`last_payment_error_message` is `paymentIntent.last_payment_error?.message`. -/
structure PaymentIntent where
  id : String
  status : String
  client_secret : String
  last_payment_error_message : Option String
  deriving DecidableEq, Repr

/-- A statement sent to the store. -/
inductive DbOp where
  | selectByIdempotencyKey (key : String)
  | insertTransaction (transaction_id : Nat)
  | markFailed (transaction_id : Nat) (error_message : String)
  | setIntentId (transaction_id : Nat) (intent_id : String)
  | selectByRef (ref : String)
  | selectByRefForUpdate (ref : String)
  | markCancelled (transaction_id : Nat)
  | selectById (transaction_id : Nat)
  | updateStatus (transaction_id : Nat) (status : String) (error_message : Option String)
  | selectStatus (transaction_id : Nat)
  | insertAttempt (transaction_id : Nat)
  | selectEmailDetails (transaction_id : Nat)
  | selectStale
  | markStuck (transaction_id : Nat) (error_message : String)
  deriving DecidableEq, Repr

/-- One externally visible step of a handler, in the order it happens. -/
inductive Event where
  | db (op : DbOp)
  | stripeCreate (params : CreateIntentParams)
  | stripeRetrieve (intent_id : String)
  | stripeCancel (intent_id : String)
  | sendMail (details : EmailDetails) (delivered : Bool)
  | queueAdd (transaction_id : Nat) (opts : JobOptions) (accepted : Bool)
  deriving DecidableEq, Repr

/-- Whether the event is a call to the payment processor. -/
def Event.isProcessorCall : Event → Bool
  | .stripeCreate _ => true
  | .stripeRetrieve _ => true
  | .stripeCancel _ => true
  | _ => false

/-- Whether the event is the statement that sets a transaction to stuck. -/
def Event.isMarkStuck : Event → Bool
  | .db (.markStuck _ _) => true
  | _ => false

/-- Whether the event hands a mail to the transport. -/
def Event.isNotification : Event → Bool
  | .sendMail _ _ => true
  | _ => false

/-- The store, the queue, the clock and the trace of everything done so far. -/
structure World where
  transactions : List Transaction
  users : List User
  attempts : List ReconciliationAttempt
  jobs : List Job
  now : Int
  trace : List Event
  deriving DecidableEq, Repr

/-- The external collaborators: processor, mail transport, queue and the store defaults. -/
structure Env where
  stripeCreate : CreateIntentParams → Except String PaymentIntent
  stripeRetrieve : String → Except String PaymentIntent
  stripeCancel : String → Except String Unit
  sendMail : EmailDetails → Except String Unit
  queueAdd : Nat → Except String Unit
  uuid : Nat → String

/-- Append one event to the trace. -/
def World.emit (w : World) (e : Event) : World :=
  { w with trace := w.trace ++ [e] }

/-- The events a handler added, given the trace length before it ran. -/
def World.since (w : World) (before : World) : List Event :=
  w.trace.drop before.trace.length

/-! ## Responses of the request handlers -/

/-- The transaction object of the 201 response of `createTransaction`. -/
structure TransactionSummary where
  transaction_id : Nat
  amount_cents : Int
  currency : String
  status : String
  created_at : Int
  deriving DecidableEq, Repr

/-- The `pagination` object of the listing response (`none` is `NaN`). -/
structure Pagination where
  total : Nat
  page : Option Int
  limit : Option Int
  pages : Option Int
  deriving DecidableEq, Repr

/-- The JSON body of a response. -/
inductive Body where
  | message (message : String)
  | withTransaction (message : String) (transaction : Transaction)
  | created (message : String) (transaction : TransactionSummary) (client_secret : String)
  | failure (message : String) (error : String)
  | listing (message : String) (transactions : List Transaction) (pagination : Pagination)
  deriving DecidableEq, Repr

/-- What `res.status(code).json(body)` sends. -/
structure Response where
  status : Nat
  body : Body
  deriving DecidableEq, Repr

/-- The body of a creation request. -/
structure CreateBody where
  amount_cent : JsVal
  description : JsVal
  currency : JsVal
  sender_user_id : JsVal
  receiver_user_id : JsVal
  idempotency_key : JsVal
  deriving DecidableEq, Repr

/-! ## Store statements -/

/-- The statement `UPDATE transactions SET ... WHERE transaction_id = id`. -/
def updateWhereId (id : Nat) (f : Transaction → Transaction) (ts : List Transaction) :
    List Transaction :=
  ts.map (fun t => if t.transaction_id = id then f t else t)

/-- The query `SELECT * FROM transactions WHERE transaction_id = id`. -/
def selectById (id : Nat) (ts : List Transaction) : List Transaction :=
  ts.filter (fun t => t.transaction_id = id)

/-- The query `SELECT * FROM transactions WHERE transaction_id = $1 OR
transaction_uuid::text = $1`. -/
def selectByRef (ref : String) (ts : List Transaction) : List Transaction :=
  ts.filter (fun t => toString t.transaction_id = ref || t.transaction_uuid = ref)

/-- The next value of the serial `transaction_id`: above every id in the table. -/
def nextTransactionId (ts : List Transaction) : Nat :=
  ts.foldl (fun m t => max m (t.transaction_id + 1)) 1

/-! ## `utils/transaction.utils.js` and `services/email.service.js` -/

/-- The function `getTransactionDetailsForEmail`: the transaction joined with its sender and its receiver;
`null` when the join is empty.  The query does not select `receiver_user_id`, so the fallback
receiver name is built from `undefined`. -/
def getTransactionDetailsForEmail (w : World) (transactionId : Nat) :
    World × Option EmailDetails :=
  let w1 := w.emit (.db (.selectEmailDetails transactionId))
  let rows : List (Transaction × User × User) :=
    (selectById transactionId w1.transactions).flatMap (fun t =>
      (w1.users.filter (fun u => u.user_id = t.sender_user_id)).flatMap (fun sender =>
        (w1.users.filter (fun u => u.user_id = t.receiver_user_id)).map (fun receiver =>
          (t, sender, receiver))))
  match rows with
  | [] => (w1, none)
  | (t, sender, receiver) :: _ =>
    (w1, some
      { transactionId := toString t.transaction_id
        amount_cents := t.amount_cents
        currency := t.currency
        status := t.status
        date := t.created_at
        userName := sender.name
        email := sender.email
        receiverName := if receiver.name != "" then receiver.name else "User #undefined" })

/-- The function `sendTransactionEmail`: the mail is handed to the transport; an error of the transport is
caught and logged, so the caller continues either way. -/
def sendTransactionEmail (env : Env) (w : World) (details : EmailDetails) : World :=
  match env.sendMail details with
  | .ok _ => w.emit (.sendMail details true)
  | .error _ => w.emit (.sendMail details false)

/-- The two steps every notification site performs: fetch the details, and send if there are
any (`if (emailDetails) await sendTransactionEmail(...)`).  `adjust` is the change the caller
makes to the details object before sending. -/
def notify (env : Env) (w : World) (transactionId : Nat)
    (adjust : EmailDetails → EmailDetails) : World :=
  match getTransactionDetailsForEmail w transactionId with
  | (w1, some emailDetails) => sendTransactionEmail env w1 (adjust emailDetails)
  | (w1, none) => w1

/-! ## `controller/transaction.controller.js` -/

/-- The request fields after the conversions of lines 18-24, once the checks of lines 25-37
have passed. -/
structure ValidRequest where
  amount_cent : Int
  description : Option String
  currency : String
  sender_user_id : Int
  receiver_user_id : Int
  idempotency_key : String
  deriving DecidableEq, Repr

/-- Lines 18-37 of `createTransaction`: the conversions of the body fields and the three
checks, each answering 400.  `Number.isInteger` fails exactly on `NaN` here, a falsy number is
`NaN` or 0, a falsy string is `null` or empty. -/
def validate (body : CreateBody) : Except Response ValidRequest :=
  let amount_cent := parseInt body.amount_cent
  let sender_user_id := parseInt body.sender_user_id
  let receiver_user_id := parseInt body.receiver_user_id
  let currency := stringOrNull toLowerCase body.currency
  let description := stringOrNull trim body.description
  let idempotency_key := stringOrNull trim body.idempotency_key
  match amount_cent with
  | none => .error ⟨400, .message "Invalid amount_cent"⟩
  | some amount =>
    if amount ≤ 0 then .error ⟨400, .message "Invalid amount_cent"⟩
    else
      match currency, sender_user_id, receiver_user_id, idempotency_key with
      | some cur, some sender, some receiver, some key =>
        if cur = "" ∨ sender = 0 ∨ receiver = 0 ∨ key = "" then
          .error ⟨400, .message "Missing required fields"⟩
        else if sender = receiver then
          .error ⟨400, .message "Sender and receiver cannot be same"⟩
        else
          .ok { amount_cent := amount
                description := description
                currency := cur
                sender_user_id := sender
                receiver_user_id := receiver
                idempotency_key := key }
      | _, _, _, _ => .error ⟨400, .message "Missing required fields"⟩

/-- The row `INSERT INTO transactions ... RETURNING *` creates for a validated request, line
52-64: status pending, no intent id, no error message. -/
def pendingRow (env : Env) (w : World) (req : ValidRequest) : Transaction :=
  { transaction_id := nextTransactionId w.transactions
    transaction_uuid := env.uuid (nextTransactionId w.transactions)
    amount_cents := req.amount_cent
    description := req.description
    currency := req.currency
    sender_user_id := req.sender_user_id
    receiver_user_id := req.receiver_user_id
    idempotency_key := req.idempotency_key
    status := "pending"
    stripe_intent_id := none
    error_message := none
    created_at := w.now
    updated_at := w.now }

/-- The argument of `stripe.paymentIntents.create`, lines 70-79. -/
def createIntentParams (req : ValidRequest) (transaction : Transaction) : CreateIntentParams :=
  { amount := req.amount_cent
    currency := req.currency
    description :=
      if truthy req.description then req.description.getD ""
      else "Payment from user:" ++ toString req.sender_user_id
    metadata_transaction_id := toString transaction.transaction_id
    metadata_sender_user_id := toString req.sender_user_id
    metadata_receiver_user_id := toString req.receiver_user_id }

/-- The handler `createTransaction`, lines 6-122. -/
def createTransaction (env : Env) (w : World) (body : CreateBody) : World × Response :=
  match validate body with
  | .error res => (w, res)
  | .ok req =>
    let w1 := w.emit (.db (.selectByIdempotencyKey req.idempotency_key))
    match w1.transactions.filter (fun t => t.idempotency_key = req.idempotency_key) with
    | existing :: _ =>
      (w1, ⟨200, .withTransaction "Transaction already exists (idempotent)" existing⟩)
    | [] =>
      let transaction := pendingRow env w1 req
      let w2 : World :=
        { w1 with transactions := w1.transactions ++ [transaction] }.emit
          (.db (.insertTransaction transaction.transaction_id))
      let params := createIntentParams req transaction
      let w3 := w2.emit (.stripeCreate params)
      match env.stripeCreate params with
      | .error stripeError =>
        let w4 : World :=
          { w3 with
            transactions := updateWhereId transaction.transaction_id
              (fun t => { t with status := "failed", error_message := some stripeError })
              w3.transactions }.emit
            (.db (.markFailed transaction.transaction_id stripeError))
        let w5 := notify env w4 transaction.transaction_id (fun d => d)
        (w5, ⟨500, .failure "Failed to create payment intent" stripeError⟩)
      | .ok paymentIntent =>
        let w4 : World :=
          { w3 with
            transactions := updateWhereId transaction.transaction_id
              (fun t => { t with stripe_intent_id := some paymentIntent.id })
              w3.transactions }.emit
            (.db (.setIntentId transaction.transaction_id paymentIntent.id))
        (w4, ⟨201, .created "Transaction created"
          { transaction_id := transaction.transaction_id
            amount_cents := transaction.amount_cents
            currency := transaction.currency
            status := transaction.status
            created_at := transaction.created_at }
          paymentIntent.client_secret⟩)

/-- Step 2 of `cancelTransaction`, lines 243-252: if the row has an intent id, the processor
is asked to cancel the intent; an error of the processor is caught and logged. -/
def cancelIntent (env : Env) (w : World) (stripe_intent_id : Option String) : World :=
  match stripe_intent_id with
  | some intent =>
    if intent = "" then w
    else
      match env.stripeCancel intent with
      | .ok _ => w.emit (.stripeCancel intent)
      | .error _ => w.emit (.stripeCancel intent)
  | none => w

/-- The handler `cancelTransaction`, lines 218-273. -/
def cancelTransaction (env : Env) (w : World) (id : String) : World × Response :=
  let w1 := w.emit (.db (.selectByRefForUpdate id))
  match selectByRef id w1.transactions with
  | [] => (w1, ⟨404, .message "Transaction not found"⟩)
  | transaction :: _ =>
    if transaction.status ≠ "pending" then
      (w1, ⟨400, .message ("Cannot cancel transaction in " ++ transaction.status ++
        " status. Only pending transactions can be cancelled.")⟩)
    else
      let w2 := cancelIntent env w1 transaction.stripe_intent_id
      let w3 : World :=
        { w2 with
          transactions := updateWhereId transaction.transaction_id
            (fun t => { t with status := "cancelled", updated_at := w2.now })
            w2.transactions }.emit (.db (.markCancelled transaction.transaction_id))
      match selectById transaction.transaction_id w3.transactions with
      | updated :: _ => (w3, ⟨200, .withTransaction "Transaction cancelled successfully" updated⟩)
      | [] => (w3, ⟨200, .message "Transaction cancelled successfully"⟩)

/-- The query string of a listing request. -/
structure ListQuery where
  page : JsVal
  limit : JsVal
  status : JsVal
  sender_user_id : JsVal
  deriving DecidableEq, Repr

/-- The two statements `getTransactions` sends, as the store answers them: the page of rows for
the filters, `LIMIT` and `OFFSET`, and the count for the filters. -/
structure ListingStore where
  select : (status sender_user_id : JsVal) → (limit offset : Option Int) →
    Except String (List Transaction)
  count : (status sender_user_id : JsVal) → Except String Nat

/-- Lines 156-160 of `getTransactions`: `page` defaults to 1 and `limit` to 20 when the
parameter is `undefined`; the result is `(page, limit, offset)`. -/
def paginationParams (q : ListQuery) : Option Int × Option Int × Option Int :=
  let page0 : JsVal := if q.page = .undefined then .num 1 else q.page
  let limit0 : JsVal := if q.limit = .undefined then .num 20 else q.limit
  let page := mathMax (some 1) (parseInt page0)
  let limit := mathMax (some 1) (mathMin (some 100) (parseInt limit0))
  let offset : Option Int :=
    match page, limit with
    | some p, some l => some ((p - 1) * l)
    | _, _ => none
  (page, limit, offset)

/-- The handler `getTransactions`, lines 153-216. -/
def getTransactions (store : ListingStore) (q : ListQuery) : Response :=
  let (page, limit, offset) := paginationParams q
  match store.select q.status q.sender_user_id limit offset with
  | .error e => ⟨500, .failure "Failed to fetch transactions" e⟩
  | .ok rows =>
    match store.count q.status q.sender_user_id with
    | .error e => ⟨500, .failure "Failed to fetch transactions" e⟩
    | .ok totalTransactions =>
      ⟨200, .listing "Transactions retrieved" rows
        { total := totalTransactions
          page := page
          limit := limit
          pages := limit.map (fun l => ((totalTransactions : Int) + l - 1) / l) }⟩

/-! ## `worker/reconciliation.worker.js` -/

/-- The function `updateTransactionStatus`, lines 133-149. -/
def updateTransactionStatus (w : World) (transactionId : Nat) (newStatus : String)
    (errorMessage : Option String) : World :=
  { w with
    transactions := updateWhereId transactionId
      (fun t => { t with status := newStatus, error_message := errorMessage,
                         updated_at := w.now })
      w.transactions }.emit (.db (.updateStatus transactionId newStatus errorMessage))

/-- The function `logReconciliationAttempt`, lines 150-168: "status after" is the status the row has when the
attempt is written (`result.rows[0]?.status || null`). -/
def logReconciliationAttempt (w : World) (transactionId : Nat) (stripeStatus : Option String)
    (ourStatusBefore : Option String) (errorMessage : Option String) : World :=
  let w1 := w.emit (.db (.selectStatus transactionId))
  let ourStatusAfter : Option String :=
    match selectById transactionId w1.transactions with
    | t :: _ => if t.status != "" then some t.status else none
    | [] => none
  { w1 with
    attempts := w1.attempts ++
      [({ transaction_id := transactionId
          stripe_status := stripeStatus
          our_status_before := ourStatusBefore
          our_status_after := ourStatusAfter
          error_message := errorMessage
          checked_at := w1.now } : ReconciliationAttempt)] }.emit (.db (.insertAttempt transactionId))

/-- The `switch` on the processor status, lines 66-104: the new local status and the error
message to store with it. -/
def mapStripeStatus (paymentIntent : PaymentIntent) (currentStatus : String) :
    String × Option String :=
  if paymentIntent.status = "succeeded" then ("successful", none)
  else if paymentIntent.status = "canceled" then ("cancelled", none)
  else if paymentIntent.status = "requires_payment_method" then
    ("failed",
      some (if truthy paymentIntent.last_payment_error_message
            then paymentIntent.last_payment_error_message.getD ""
            else "Payment Failed"))
  else if paymentIntent.status = "requires_action" ∨
      paymentIntent.status = "requires_confirmation" ∨
      paymentIntent.status = "processing" then ("under_review", none)
  else (currentStatus, none)

/-- The handler given to `reconciliationQueue.process`, lines 14-131.  The result is
`.error msg` when the handler re-raises an error to the queue. -/
def process (env : Env) (w : World) (transaction_id : Nat) : World × Except String Unit :=
  let w1 := w.emit (.db (.selectById transaction_id))
  match selectById transaction_id w1.transactions with
  | [] => (w1, .ok ())
  | transaction :: _ =>
    if ["successful", "failed", "cancelled"].contains transaction.status then (w1, .ok ())
    else if !truthy transaction.stripe_intent_id then
      (updateTransactionStatus w1 transaction_id "failed" (some "No Stripe Intent ID"), .ok ())
    else
      let intent := transaction.stripe_intent_id.getD ""
      let w2 := w1.emit (.stripeRetrieve intent)
      match env.stripeRetrieve intent with
      | .error message =>
        (logReconciliationAttempt w2 transaction_id none none (some message), .error message)
      | .ok paymentIntent =>
        let w3 := logReconciliationAttempt w2 transaction_id (some paymentIntent.status)
          (some transaction.status) none
        let (newStatus, errorMessage) := mapStripeStatus paymentIntent transaction.status
        if newStatus ≠ transaction.status then
          let w4 := updateTransactionStatus w3 transaction_id newStatus errorMessage
          if ["successful", "failed"].contains newStatus then
            (notify env w4 transaction_id (fun d => d), .ok ())
          else (w4, .ok ())
        else (w3, .ok ())

/-- The handler of the queue's "failed" event, lines 206-238. -/
def onFailed (env : Env) (w : World) (job : Job) (err : String) : World :=
  if job.attemptsMade ≥ 5 then
    let message :=
      "Reconciliation failed after " ++ toString job.attemptsMade ++ " attempts: " ++ err
    let w1 : World :=
      { w with
        transactions := updateWhereId job.transaction_id
          (fun t => { t with status := "stuck", error_message := some message,
                             updated_at := w.now })
          w.transactions }.emit (.db (.markStuck job.transaction_id message))
    notify env w1 job.transaction_id (fun d => { d with status := "stuck" })
  else w

/-- One minute of the clock, in milliseconds. -/
def minute : Int := 60000

/-- Insertion of a row into a list ordered by `created_at`, after the rows that are not later. -/
def insertByCreatedAt (t : Transaction) : List Transaction → List Transaction
  | [] => [t]
  | u :: us =>
    if t.created_at < u.created_at then t :: u :: us
    else u :: insertByCreatedAt t us

/-- The clause `ORDER BY t.created_at ASC`. -/
def orderByCreatedAt : List Transaction → List Transaction
  | [] => []
  | t :: ts => insertByCreatedAt t (orderByCreatedAt ts)

/-- The rows of `transactions t LEFT JOIN reconciliation_attempts ra ON t.transaction_id =
ra.transaction_id` for one transaction: one row per attempt of the transaction, and one row with
`ra` null when it has none. -/
def leftJoinAttempts (t : Transaction) (attempts : List ReconciliationAttempt) :
    List (Transaction × Option ReconciliationAttempt) :=
  match attempts.filter (fun ra => ra.transaction_id = t.transaction_id) with
  | [] => [(t, none)]
  | ras => ras.map (fun ra => (t, some ra))

/-- The `WHERE` clause of the scan, lines 176-178, on one row of the join. -/
def staleRow (now : Int) (row : Transaction × Option ReconciliationAttempt) : Bool :=
  (row.1.status = "pending" || row.1.status = "under_review") &&
  decide (row.1.created_at < now - 5 * minute) &&
  (match row.2 with
   | none => true
   | some ra => decide (ra.checked_at < now - 2 * minute))

/-- The query of `scheduleReconciliation`, lines 173-180: join, filter, order, first 100. -/
def selectStale (w : World) : List Transaction :=
  (orderByCreatedAt
    (((w.transactions.flatMap (fun t => leftJoinAttempts t w.attempts)).filter
      (staleRow w.now)).map (fun row => row.1))).take 100

/-- The options of every job the scan adds, lines 188-196. -/
def reconciliationJobOptions : JobOptions :=
  { attempts := 5
    backoffType := "exponential"
    backoffDelay := 60000
    removeOnComplete := true
    removeOnFail := false }

/-- The loop of `scheduleReconciliation`, lines 185-201, inside the `try` of line 171: an error
of `reconciliationQueue.add` leaves the loop for the `catch` of line 202. -/
def enqueueRows (env : Env) (w : World) : List Transaction → World
  | [] => w
  | tx :: rest =>
    match env.queueAdd tx.transaction_id with
    | .ok _ =>
      enqueueRows env
        ({ w with jobs := w.jobs ++
            [({ transaction_id := tx.transaction_id, opts := reconciliationJobOptions,
                attemptsMade := 0 } : Job)] }.emit
          (.queueAdd tx.transaction_id reconciliationJobOptions true)) rest
    | .error _ => w.emit (.queueAdd tx.transaction_id reconciliationJobOptions false)

/-- The function `scheduleReconciliation`, lines 170-205. -/
def scheduleReconciliation (env : Env) (w : World) : World :=
  let w1 := w.emit (.db .selectStale)
  enqueueRows env w1 (selectStale w1)

/-! ## The queue's handling of a job

The queue library calls the process handler; when the handler raises, it counts the attempt,
emits "failed" (so `onFailed` runs with the new `attemptsMade`) and retries while the count is
below the job's `attempts`.  In this embedding the process handler raises only when the
retrieval of the intent raises, so `runAttempt` and `runJob` describe jobs that fail for that
reason.  The "failed" handler is `onFailed`, a handler of its own that reads no status before
it writes; what it does to a transaction in any status, for any job and error, is stated on
`onFailed` itself. -/

/-- One attempt of a job: the process handler and, if it raised, the handling of the failure.
The flag says whether the attempt failed. -/
def runAttempt (env : Env) (w : World) (job : Job) : World × Job × Bool :=
  match process env w job.transaction_id with
  | (w1, .ok _) => (w1, job, false)
  | (w1, .error err) =>
    let failedJob := { job with attemptsMade := job.attemptsMade + 1 }
    (onFailed env w1 failedJob err, failedJob, true)

/-- A job run to its end: attempts are repeated until one completes or `opts.attempts` of them
have failed.  The first argument bounds the number of attempts still to run. -/
def runJob (env : Env) : Nat → World → Job → World
  | 0, w, _ => w
  | remaining + 1, w, job =>
    match runAttempt env w job with
    | (w1, _, false) => w1
    | (w1, failedJob, true) =>
      if failedJob.attemptsMade < failedJob.opts.attempts then runJob env remaining w1 failedJob
      else w1

/-! ## Observations used in the statements -/

/-- The status of the transaction with the given id, as a `SELECT` would read it. -/
def statusOf (w : World) (id : Nat) : Option String :=
  (selectById id w.transactions).head?.map (fun t => t.status)

/-- The error message of the transaction with the given id. -/
def errorMessageOf (w : World) (id : Nat) : Option (Option String) :=
  (selectById id w.transactions).head?.map (fun t => t.error_message)

/-- The processor intent id of the transaction with the given id. -/
def intentIdOf (w : World) (id : Nat) : Option (Option String) :=
  (selectById id w.transactions).head?.map (fun t => t.stripe_intent_id)

/-- The processor calls among the events a handler added. -/
def processorCalls (after before : World) : List Event :=
  (after.since before).filter Event.isProcessorCall

/-- The notifications among the events a handler added. -/
def notifications (after before : World) : List Event :=
  (after.since before).filter Event.isNotification

/-! ## Concrete inputs -/

/-- A processor that confirms every intent, a transport that delivers, a queue that accepts. -/
def sampleEnv : Env :=
  { stripeCreate := fun _ => .ok ⟨"pi_1", "requires_payment_method", "secret_1", none⟩
    stripeRetrieve := fun _ => .ok ⟨"pi_1", "succeeded", "secret_1", none⟩
    stripeCancel := fun _ => .ok ()
    sendMail := fun _ => .ok ()
    queueAdd := fun _ => .ok ()
    uuid := fun n => "uuid-" ++ toString n }

/-- A pending transfer of 10.00 usd from user 1 to user 2, created at time 0, with an intent. -/
def sampleTx : Transaction :=
  { transaction_id := 1
    transaction_uuid := "uuid-1"
    amount_cents := 1000
    description := none
    currency := "usd"
    sender_user_id := 1
    receiver_user_id := 2
    idempotency_key := "k1"
    status := "pending"
    stripe_intent_id := some "pi_1"
    error_message := none
    created_at := 0
    updated_at := 0 }

/-- A store holding `sampleTx` and its two users, ten minutes after its creation. -/
def sampleWorld : World :=
  { transactions := [sampleTx]
    users := [⟨1, "Ann", "ann@example.com"⟩, ⟨2, "Bob", "bob@example.com"⟩]
    attempts := []
    jobs := []
    now := 600000
    trace := [] }

/-- The store of `sampleWorld` with the transaction in another status. -/
def sampleWorldWithStatus (status : String) : World :=
  { sampleWorld with transactions := [{ sampleTx with status := status }] }

/-- A processor that raises on every call, a transport that fails and a queue that refuses. -/
def failingEnv : Env :=
  { stripeCreate := fun _ => .error "card declined"
    stripeRetrieve := fun _ => .error "processor unavailable"
    stripeCancel := fun _ => .error "intent cannot be cancelled"
    sendMail := fun _ => .error "transport down"
    queueAdd := fun _ => .error "queue down"
    uuid := fun n => "uuid-" ++ toString n }

/-- A creation request whose amount is the text "12.5"; every other field is in order and the
key is new to `sampleWorld`. -/
def fractionalAmountBody : CreateBody :=
  { amount_cent := .str "12.5"
    description := .undefined
    currency := .str "USD"
    sender_user_id := .num 1
    receiver_user_id := .num 2
    idempotency_key := .str "k2" }

/-- The claim's words "the amount is a positive integer", read on the field as it arrives: a
number above zero, or a text that is nothing but the decimal digits of a number above zero. -/
def denotesPositiveInteger : JsVal → Bool
  | .num i => decide (0 < i)
  | .str s =>
    !s.data.isEmpty && s.data.all (fun c => (digitValue 10 c).isSome) &&
      decide (0 < (leadingDigits 10 s.data).foldl (fun acc d => acc * 10 + d) 0)
  | _ => false

/-- The store of `sampleWorld` with the transaction lacking an intent id. -/
def sampleWorldNoIntent : World :=
  { sampleWorld with transactions := [{ sampleTx with stripe_intent_id := none }] }

/-- The store of `sampleWorld` (time 600000, ten minutes after the creation of `sampleTx`) with
two attempts on `sampleTx`: one three minutes ago, a later one a minute ago. -/
def recentlyCheckedWorld : World :=
  { sampleWorld with
    attempts :=
      [⟨1, some "processing", some "pending", some "pending", none, 420000⟩,
       ⟨1, some "processing", some "pending", some "pending", none, 540000⟩] }

/-- The store of `sampleWorld` with two attempts on `sampleTx`, four and three minutes ago. -/
def twiceCheckedWorld : World :=
  { sampleWorld with
    attempts :=
      [⟨1, some "processing", some "pending", some "pending", none, 360000⟩,
       ⟨1, some "processing", some "pending", some "pending", none, 420000⟩] }

/-- A listing store that answers every query with no rows and a count of zero. -/
def emptyListingStore : ListingStore :=
  { select := fun _ _ _ _ => .ok []
    count := fun _ _ => .ok 0 }

/-- The collaborators of `sampleEnv`, with a processor that reports every intent as
requires_payment_method with the last error "card declined". -/
def decliningEnv : Env :=
  { sampleEnv with
    stripeRetrieve := fun _ =>
      .ok ⟨"pi_1", "requires_payment_method", "secret_1", some "card declined"⟩ }

/-- A second pending transfer, from user 2 to user 1, created at time 60000, with an intent. -/
def sampleTx2 : Transaction :=
  { sampleTx with
    transaction_id := 2
    transaction_uuid := "uuid-2"
    sender_user_id := 2
    receiver_user_id := 1
    idempotency_key := "k2"
    stripe_intent_id := some "pi_2"
    created_at := 60000
    updated_at := 60000 }

/-- The store of `sampleWorld` with `sampleTx2` added: two stale transactions, no attempts. -/
def twoStaleWorld : World :=
  { sampleWorld with transactions := [sampleTx, sampleTx2] }

/-- The collaborators of `sampleEnv`, with a queue that refuses the job of transaction 1 and
accepts every other job. -/
def firstAddFailsEnv : Env :=
  { sampleEnv with
    queueAdd := fun id => if id = 1 then .error "queue refused the job" else .ok () }

/-- The store of `sampleWorld` with an empty `users` table: the mail query finds no row. -/
def sampleWorldNoUsers : World :=
  { sampleWorld with users := [] }

/-! # Theorems -/

/-! ## Frame lemmas -/

@[simp] theorem emit_transactions (w : World) (e : Event) :
    (w.emit e).transactions = w.transactions := rfl

@[simp] theorem emit_users (w : World) (e : Event) : (w.emit e).users = w.users := rfl

@[simp] theorem emit_attempts (w : World) (e : Event) : (w.emit e).attempts = w.attempts := rfl

@[simp] theorem emit_now (w : World) (e : Event) : (w.emit e).now = w.now := rfl

@[simp] theorem emit_trace (w : World) (e : Event) : (w.emit e).trace = w.trace ++ [e] := rfl

@[simp] theorem emit_jobs (w : World) (e : Event) : (w.emit e).jobs = w.jobs := rfl

theorem since_append (w before : World) (l : List Event) (h : w.trace = before.trace ++ l) :
    w.since before = l := by
  simp [World.since, h]

theorem selectById_updateWhereId (id : Nat) (f : Transaction → Transaction)
    (hf : ∀ t, (f t).transaction_id = t.transaction_id) (ts : List Transaction) :
    selectById id (updateWhereId id f ts) = (selectById id ts).map f := by
  induction ts with
  | nil => rfl
  | cons t ts ih =>
    simp only [selectById, updateWhereId] at ih ⊢
    by_cases h : t.transaction_id = id
    · simp [List.filter_cons, List.map_cons, h, hf, ih]
    · simp [List.filter_cons, List.map_cons, h, ih]

@[simp] theorem logReconciliationAttempt_transactions (w : World) (id : Nat)
    (a b c : Option String) :
    (logReconciliationAttempt w id a b c).transactions = w.transactions := rfl

@[simp] theorem logReconciliationAttempt_trace (w : World) (id : Nat) (a b c : Option String) :
    (logReconciliationAttempt w id a b c).trace =
      w.trace ++ [.db (.selectStatus id), .db (.insertAttempt id)] := by
  simp [logReconciliationAttempt]

@[simp] theorem logReconciliationAttempt_attempts_length (w : World) (id : Nat)
    (a b c : Option String) :
    (logReconciliationAttempt w id a b c).attempts.length = w.attempts.length + 1 := by
  simp [logReconciliationAttempt]

@[simp] theorem sendTransactionEmail_transactions (env : Env) (w : World) (d : EmailDetails) :
    (sendTransactionEmail env w d).transactions = w.transactions := by
  unfold sendTransactionEmail; split <;> rfl

@[simp] theorem sendTransactionEmail_attempts (env : Env) (w : World) (d : EmailDetails) :
    (sendTransactionEmail env w d).attempts = w.attempts := by
  unfold sendTransactionEmail; split <;> rfl

theorem sendTransactionEmail_trace (env : Env) (w : World) (d : EmailDetails) :
    ∃ delivered, (sendTransactionEmail env w d).trace = w.trace ++ [.sendMail d delivered] := by
  unfold sendTransactionEmail; split
  · exact ⟨true, rfl⟩
  · exact ⟨false, rfl⟩

@[simp] theorem getTransactionDetailsForEmail_world (w : World) (id : Nat) :
    (getTransactionDetailsForEmail w id).1 = w.emit (.db (.selectEmailDetails id)) := by
  unfold getTransactionDetailsForEmail
  simp only
  split <;> rfl

@[simp] theorem notify_transactions (env : Env) (w : World) (id : Nat)
    (adjust : EmailDetails → EmailDetails) :
    (notify env w id adjust).transactions = w.transactions := by
  unfold notify
  split
  · next w1 d h =>
    have := congrArg Prod.fst h
    simp at this
    simp [← this]
  · next w1 h =>
    have := congrArg Prod.fst h
    simp at this
    simp [← this]

@[simp] theorem notify_attempts (env : Env) (w : World) (id : Nat)
    (adjust : EmailDetails → EmailDetails) :
    (notify env w id adjust).attempts = w.attempts := by
  unfold notify
  split
  · next w1 d h =>
    have := congrArg Prod.fst h
    simp at this
    simp [← this]
  · next w1 h =>
    have := congrArg Prod.fst h
    simp at this
    simp [← this]

/-- A notification site adds the details query and at most one mail, and nothing else. -/
theorem notify_trace (env : Env) (w : World) (id : Nat) (adjust : EmailDetails → EmailDetails) :
    (notify env w id adjust).trace = w.trace ++ [.db (.selectEmailDetails id)] ∨
    ∃ d delivered, (getTransactionDetailsForEmail w id).2 = some d ∧
      (notify env w id adjust).trace =
        w.trace ++ [.db (.selectEmailDetails id), .sendMail (adjust d) delivered] := by
  unfold notify
  split
  · next w1 d h =>
    right
    have h1 := congrArg Prod.fst h
    have h2 := congrArg Prod.snd h
    simp at h1 h2
    subst h1
    obtain ⟨delivered, hd⟩ :=
      sendTransactionEmail_trace env (w.emit (.db (.selectEmailDetails id))) (adjust d)
    exact ⟨d, delivered, h2, by simp [hd]⟩
  · next w1 h =>
    left
    have h1 := congrArg Prod.fst h
    simp at h1
    simp [← h1]

@[simp] theorem updateTransactionStatus_trace (w : World) (id : Nat) (s : String)
    (e : Option String) :
    (updateTransactionStatus w id s e).trace = w.trace ++ [.db (.updateStatus id s e)] := rfl

@[simp] theorem updateTransactionStatus_attempts (w : World) (id : Nat) (s : String)
    (e : Option String) :
    (updateTransactionStatus w id s e).attempts = w.attempts := rfl

theorem statusOf_updateTransactionStatus (w : World) (id : Nat) (s : String) (e : Option String)
    (t : Transaction) (h : (selectById id w.transactions).head? = some t) :
    statusOf (updateTransactionStatus w id s e) id = some s ∧
    errorMessageOf (updateTransactionStatus w id s e) id = some e := by
  unfold statusOf errorMessageOf updateTransactionStatus
  simp only [emit_transactions]
  rw [selectById_updateWhereId]
  · simp [List.head?_map, h]
  · intro t; rfl

theorem head?_eq_some_cons {α : Type} {l : List α} {a : α} (h : l.head? = some a) :
    ∃ rest, l = a :: rest := by
  cases l with
  | nil => simp at h
  | cons b rest =>
    simp at h
    exact ⟨rest, by rw [h]⟩

theorem statusOf_of_head (w : World) (id : Nat) (t : Transaction)
    (h : (selectById id w.transactions).head? = some t) : statusOf w id = some t.status := by
  simp [statusOf, h]

/-- The process handler on an unresolved transaction with an intent id whose retrieval
succeeds: the attempt is logged, then the mapped status is written if it differs. -/
theorem process_retrieved (env : Env) (w : World) (id : Nat) (tx : Transaction)
    (intent : String) (pi : PaymentIntent)
    (hfound : (selectById id w.transactions).head? = some tx)
    (hopen : ["successful", "failed", "cancelled"].contains tx.status = false)
    (hintent : tx.stripe_intent_id = some intent) (hne : intent ≠ "")
    (hret : env.stripeRetrieve intent = .ok pi) :
    process env w id =
      (let w3 := logReconciliationAttempt
          ((w.emit (.db (.selectById id))).emit (.stripeRetrieve intent)) id
          (some pi.status) (some tx.status) none
       if (mapStripeStatus pi tx.status).1 ≠ tx.status then
         let w4 := updateTransactionStatus w3 id (mapStripeStatus pi tx.status).1
           (mapStripeStatus pi tx.status).2
         if ["successful", "failed"].contains (mapStripeStatus pi tx.status).1 then
           (notify env w4 id (fun d => d), .ok ())
         else (w4, .ok ())
       else (w3, .ok ())) := by
  obtain ⟨rest, hsel⟩ := head?_eq_some_cons hfound
  unfold process
  simp only [emit_transactions, hsel, hopen, hintent, truthy, Option.getD_some, hret]
  have : (intent != "") = true := by simpa using hne
  simp [this]

theorem process_retrieved_status (env : Env) (w : World) (id : Nat) (tx : Transaction)
    (intent : String) (pi : PaymentIntent)
    (hfound : (selectById id w.transactions).head? = some tx)
    (hopen : ["successful", "failed", "cancelled"].contains tx.status = false)
    (hintent : tx.stripe_intent_id = some intent) (hne : intent ≠ "")
    (hret : env.stripeRetrieve intent = .ok pi) :
    (process env w id).2 = .ok () ∧
    statusOf (process env w id).1 id = some (mapStripeStatus pi tx.status).1 ∧
    ((mapStripeStatus pi tx.status).1 ≠ tx.status →
      errorMessageOf (process env w id).1 id = some (mapStripeStatus pi tx.status).2) := by
  rw [process_retrieved env w id tx intent pi hfound hopen hintent hne hret]
  have hfound3 : (selectById id (logReconciliationAttempt
      ((w.emit (.db (.selectById id))).emit (.stripeRetrieve intent)) id
      (some pi.status) (some tx.status) none).transactions).head? = some tx := by
    simpa using hfound
  have hupd := statusOf_updateTransactionStatus _ id (mapStripeStatus pi tx.status).1
    (mapStripeStatus pi tx.status).2 tx hfound3
  by_cases hch : (mapStripeStatus pi tx.status).1 = tx.status
  · simp only [hch, ne_eq, not_true_eq_false, if_false, false_implies, and_true, true_and]
    exact statusOf_of_head _ _ _ hfound3
  · by_cases hn : ["successful", "failed"].contains (mapStripeStatus pi tx.status).1 = true
    · simp only [ne_eq, hch, not_false_eq_true, if_true, hn, true_and, true_implies]
      simpa [statusOf, errorMessageOf] using hupd
    · simp only [ne_eq, hch, not_false_eq_true, if_true, hn, true_and, true_implies]
      simpa [statusOf, errorMessageOf] using hupd

theorem process_no_intent (env : Env) (w : World) (id : Nat) (tx : Transaction)
    (hfound : (selectById id w.transactions).head? = some tx)
    (hopen : ["successful", "failed", "cancelled"].contains tx.status = false)
    (hintent : truthy tx.stripe_intent_id = false) :
    process env w id =
      (updateTransactionStatus (w.emit (.db (.selectById id))) id "failed"
        (some "No Stripe Intent ID"), .ok ()) := by
  obtain ⟨rest, hsel⟩ := head?_eq_some_cons hfound
  unfold process
  simp only [emit_transactions, hsel, hopen, hintent, Bool.false_eq_true, if_false,
    Bool.not_false, if_true]

theorem open_of_pending_or_under_review (s : String)
    (h : s = "pending" ∨ s = "under_review") :
    ["successful", "failed", "cancelled"].contains s = false := by
  rcases h with h | h <;> subst h <;> decide

/-- C1. One execution of the reconciliation worker on a transaction that is pending or
under_review completes and leaves the status the table of section 4.3 gives. With an intent id
whose retrieval reports status s: succeeded gives successful, canceled gives cancelled,
requires_payment_method gives failed with the last payment error message (the generic
"Payment Failed" when that message is missing or empty), requires_action,
requires_confirmation and processing give under_review, any other s leaves the status as it
was. Without an intent id (null or empty) the status becomes failed with the error
"No Stripe Intent ID" and the processor is not called. -/
theorem process_follows_status_table (env : Env) (w : World) (id : Nat) (tx : Transaction)
    (hfound : (selectById id w.transactions).head? = some tx)
    (hstatus : tx.status = "pending" ∨ tx.status = "under_review") :
    (∀ intent pi, tx.stripe_intent_id = some intent → intent ≠ "" →
      env.stripeRetrieve intent = .ok pi →
      (process env w id).2 = .ok () ∧
      (pi.status = "succeeded" → statusOf (process env w id).1 id = some "successful") ∧
      (pi.status = "canceled" → statusOf (process env w id).1 id = some "cancelled") ∧
      (pi.status = "requires_payment_method" →
        statusOf (process env w id).1 id = some "failed" ∧
        (∀ m, pi.last_payment_error_message = some m → m ≠ "" →
          errorMessageOf (process env w id).1 id = some (some m)) ∧
        (pi.last_payment_error_message = none ∨ pi.last_payment_error_message = some "" →
          errorMessageOf (process env w id).1 id = some (some "Payment Failed"))) ∧
      (pi.status = "requires_action" ∨ pi.status = "requires_confirmation" ∨
          pi.status = "processing" →
        statusOf (process env w id).1 id = some "under_review") ∧
      (pi.status ∉ ["succeeded", "canceled", "requires_payment_method", "requires_action",
          "requires_confirmation", "processing"] →
        statusOf (process env w id).1 id = some tx.status)) ∧
    (tx.stripe_intent_id = none ∨ tx.stripe_intent_id = some "" →
      (process env w id).2 = .ok () ∧
      statusOf (process env w id).1 id = some "failed" ∧
      errorMessageOf (process env w id).1 id = some (some "No Stripe Intent ID") ∧
      processorCalls (process env w id).1 w = []) := by
  have hopen := open_of_pending_or_under_review tx.status hstatus
  refine ⟨?_, ?_⟩
  · intro intent pi hintent hne hret
    obtain ⟨hok, hst, herr⟩ :=
      process_retrieved_status env w id tx intent pi hfound hopen hintent hne hret
    refine ⟨hok, ?_, ?_, ?_, ?_, ?_⟩
    · intro h
      simpa [mapStripeStatus, h] using hst
    · intro h
      simpa [mapStripeStatus, h] using hst
    · intro h
      have hmap1 : (mapStripeStatus pi tx.status).1 = "failed" := by
        simp [mapStripeStatus, h]
      have hchg : (mapStripeStatus pi tx.status).1 ≠ tx.status := by
        rw [hmap1]
        rcases hstatus with hs | hs <;> rw [hs] <;> decide
      have herr2 := herr hchg
      refine ⟨by rw [hst, hmap1], ?_, ?_⟩
      · intro m hm hmne
        rw [herr2]
        have : (m != "") = true := by simpa using hmne
        simp [mapStripeStatus, h, hm, truthy, this]
      · intro hnone
        rw [herr2]
        rcases hnone with hm | hm <;> simp [mapStripeStatus, h, hm, truthy]
    · intro h
      rcases h with h | h | h <;> simpa [mapStripeStatus, h] using hst
    · intro h
      simp only [List.mem_cons, List.mem_singleton, not_or, List.not_mem_nil, or_false] at h
      obtain ⟨h1, h2, h3, h4, h5, h6⟩ := h
      simpa [mapStripeStatus, h1, h2, h3, h4, h5, h6] using hst
  · intro hnone
    have hint : truthy tx.stripe_intent_id = false := by
      rcases hnone with hm | hm <;> simp [hm, truthy]
    rw [process_no_intent env w id tx hfound hopen hint]
    have hupd := statusOf_updateTransactionStatus (w.emit (.db (.selectById id))) id "failed"
      (some "No Stripe Intent ID") tx (by simpa using hfound)
    refine ⟨rfl, hupd.1, hupd.2, ?_⟩
    unfold processorCalls
    rw [since_append _ w [.db (.selectById id), .db (.updateStatus id "failed"
      (some "No Stripe Intent ID"))] (by simp)]
    rfl

/-- C1, at a concrete input: the pending `sampleTx`, whose intent the processor reports as
succeeded, ends successful. -/
theorem process_follows_status_table_witness :
    (selectById 1 sampleWorld.transactions).head? = some sampleTx ∧
    statusOf (process sampleEnv sampleWorld 1).1 1 = some "successful" :=
  ⟨by decide,
    ((process_follows_status_table sampleEnv sampleWorld 1 sampleTx (by decide)
      (Or.inl (by decide))).1 "pi_1" ⟨"pi_1", "succeeded", "secret_1", none⟩ (by decide)
      (by decide) rfl).2.1 rfl⟩

theorem process_resolved (env : Env) (w : World) (id : Nat) (tx : Transaction)
    (hfound : (selectById id w.transactions).head? = some tx)
    (hres : tx.status = "successful" ∨ tx.status = "failed" ∨ tx.status = "cancelled") :
    process env w id = (w.emit (.db (.selectById id)), .ok ()) := by
  obtain ⟨rest, hsel⟩ := head?_eq_some_cons hfound
  have hc : ["successful", "failed", "cancelled"].contains tx.status = true := by
    rcases hres with h | h | h <;> rw [h] <;> decide
  unfold process
  simp only [emit_transactions, hsel, hc, if_true]

/-- C3. A creation request that passes validation and whose idempotency key (as validated,
that is trimmed) is the key of a stored transaction: the first stored transaction with that
key is returned verbatim with status 200 and the "already exists" message; the only thing done
is the lookup by key, so no row is inserted or changed, the processor is not called and no
notification is sent, whatever the status of the stored transaction. -/
theorem createTransaction_idempotent (env : Env) (w : World) (body : CreateBody)
    (req : ValidRequest) (existing : Transaction)
    (hvalid : validate body = .ok req)
    (hstored : (w.transactions.filter
      (fun t => t.idempotency_key = req.idempotency_key)).head? = some existing) :
    (createTransaction env w body).2 =
      ⟨200, .withTransaction "Transaction already exists (idempotent)" existing⟩ ∧
    (createTransaction env w body).1.transactions = w.transactions ∧
    (createTransaction env w body).1.since w =
      [.db (.selectByIdempotencyKey req.idempotency_key)] ∧
    processorCalls (createTransaction env w body).1 w = [] ∧
    notifications (createTransaction env w body).1 w = [] := by
  obtain ⟨rest, hsel⟩ := head?_eq_some_cons hstored
  have hrun : createTransaction env w body =
      (w.emit (.db (.selectByIdempotencyKey req.idempotency_key)),
        ⟨200, .withTransaction "Transaction already exists (idempotent)" existing⟩) := by
    unfold createTransaction
    simp only [hvalid, emit_transactions, hsel]
  have hs : (w.emit (.db (.selectByIdempotencyKey req.idempotency_key))).since w =
      [.db (.selectByIdempotencyKey req.idempotency_key)] := since_append _ w _ (by simp)
  rw [hrun]
  refine ⟨rfl, rfl, hs, ?_, ?_⟩
  · unfold processorCalls
    rw [hs]
    rfl
  · unfold notifications
    rw [hs]
    rfl

/-- C3, at a concrete input: a request with key " k1 " against the store holding `sampleTx`,
whose key is "k1", here in status failed. -/
theorem createTransaction_idempotent_witness :
    validate ⟨.num 500, .null, .str "USD", .num 1, .num 2, .str " k1 "⟩ =
      .ok ⟨500, none, "usd", 1, 2, "k1"⟩ ∧
    (createTransaction sampleEnv (sampleWorldWithStatus "failed")
      ⟨.num 500, .null, .str "USD", .num 1, .num 2, .str " k1 "⟩).2 =
      ⟨200, .withTransaction "Transaction already exists (idempotent)"
        { sampleTx with status := "failed" }⟩ :=
  ⟨rfl,
    (createTransaction_idempotent sampleEnv (sampleWorldWithStatus "failed")
      ⟨.num 500, .null, .str "USD", .num 1, .num 2, .str " k1 "⟩
      ⟨500, none, "usd", 1, 2, "k1"⟩ { sampleTx with status := "failed" }
      rfl (by decide)).1⟩

theorem selectById_head_of_mem (ts : List Transaction) (t : Transaction) (h : t ∈ ts) :
    ∃ first, (selectById t.transaction_id ts).head? = some first ∧
      first.transaction_id = t.transaction_id := by
  have hm : t ∈ selectById t.transaction_id ts := by
    simp [selectById, List.mem_filter, h]
  cases hsel : selectById t.transaction_id ts with
  | nil => rw [hsel] at hm; simp at hm
  | cons first rest =>
    refine ⟨first, rfl, ?_⟩
    have : first ∈ selectById t.transaction_id ts := by rw [hsel]; simp
    simpa [selectById] using (List.mem_filter.mp this).2

@[simp] theorem cancelIntent_transactions (env : Env) (w : World) (i : Option String) :
    (cancelIntent env w i).transactions = w.transactions := by
  unfold cancelIntent
  split
  · split
    · rfl
    · split <;> rfl
  · rfl

@[simp] theorem cancelIntent_now (env : Env) (w : World) (i : Option String) :
    (cancelIntent env w i).now = w.now := by
  unfold cancelIntent
  split
  · split
    · rfl
    · split <;> rfl
  · rfl

/-- C4. The cancel guard, for a transaction the request id selects. If its status is pending,
the status cancelled is committed and a row with that id and status cancelled is returned with
status 200, whatever the processor answers to the cancellation of the intent. If its status is
anything else, the answer is 400 with a message naming that status, the table of transactions
is unchanged and the only thing done is the locking read: no processor call. -/
theorem cancelTransaction_guard (env : Env) (w : World) (id : String) (tx : Transaction)
    (hfound : (selectByRef id w.transactions).head? = some tx) :
    (tx.status = "pending" →
      (∃ updated, (cancelTransaction env w id).2 =
          ⟨200, .withTransaction "Transaction cancelled successfully" updated⟩ ∧
        updated.status = "cancelled" ∧ updated.transaction_id = tx.transaction_id ∧
        (selectById tx.transaction_id (cancelTransaction env w id).1.transactions).head? =
          some updated) ∧
      statusOf (cancelTransaction env w id).1 tx.transaction_id = some "cancelled" ∧
      (cancelTransaction env w id).1.transactions =
        updateWhereId tx.transaction_id
          (fun t => { t with status := "cancelled", updated_at := w.now }) w.transactions) ∧
    (tx.status ≠ "pending" →
      (cancelTransaction env w id).2 =
        ⟨400, .message ("Cannot cancel transaction in " ++ tx.status ++
          " status. Only pending transactions can be cancelled.")⟩ ∧
      (cancelTransaction env w id).1.transactions = w.transactions ∧
      processorCalls (cancelTransaction env w id).1 w = [] ∧
      (cancelTransaction env w id).1.since w = [.db (.selectByRefForUpdate id)]) := by
  obtain ⟨rest, hsel⟩ := head?_eq_some_cons hfound
  have hmem : tx ∈ w.transactions := by
    have : tx ∈ selectByRef id w.transactions := by rw [hsel]; simp
    exact (List.mem_filter.mp this).1
  obtain ⟨first, hfirst, hfid⟩ := selectById_head_of_mem w.transactions tx hmem
  refine ⟨?_, ?_⟩
  · intro hp
    have hh : (selectById tx.transaction_id (updateWhereId tx.transaction_id
          (fun t => { t with status := "cancelled", updated_at := w.now })
          w.transactions)).head? =
        some { first with status := "cancelled", updated_at := w.now } := by
      rw [selectById_updateWhereId]
      · simp [List.head?_map, hfirst]
      · intro t; rfl
    obtain ⟨rest2, hsel2⟩ := head?_eq_some_cons hh
    unfold cancelTransaction
    simp only [emit_transactions, emit_now, hsel, hp, ne_eq, not_true_eq_false, if_false,
      cancelIntent_transactions, cancelIntent_now, hsel2]
    refine ⟨⟨_, rfl, rfl, hfid, rfl⟩, ?_⟩
    simp [statusOf, hsel2]
  · intro hnp
    have hs : (w.emit (.db (.selectByRefForUpdate id))).since w =
        [.db (.selectByRefForUpdate id)] := since_append _ w _ (by simp)
    have hrun : cancelTransaction env w id =
        (w.emit (.db (.selectByRefForUpdate id)),
          ⟨400, .message ("Cannot cancel transaction in " ++ tx.status ++
            " status. Only pending transactions can be cancelled.")⟩) := by
      unfold cancelTransaction
      simp only [emit_transactions, hsel, ne_eq, hnp, not_false_eq_true, if_true]
    rw [hrun]
    refine ⟨rfl, rfl, ?_, hs⟩
    unfold processorCalls
    rw [hs]
    rfl

/-- C4, at a concrete input: cancelling the pending `sampleTx` while the processor refuses to
cancel the intent. -/
theorem cancelTransaction_guard_witness :
    (selectByRef "1" sampleWorld.transactions).head? = some sampleTx ∧
    statusOf (cancelTransaction failingEnv sampleWorld "1").1 1 = some "cancelled" :=
  ⟨by decide,
    ((cancelTransaction_guard failingEnv sampleWorld "1" sampleTx (by decide)).1 rfl).2.1⟩

theorem validate_rejects (body : CreateBody)
    (hbad : (∀ n, parseInt body.amount_cent = some n → n ≤ 0) ∨
      truthy (stringOrNull toLowerCase body.currency) = false ∨
      (∀ n, parseInt body.sender_user_id = some n → n = 0) ∨
      (∀ n, parseInt body.receiver_user_id = some n → n = 0) ∨
      truthy (stringOrNull trim body.idempotency_key) = false ∨
      parseInt body.sender_user_id = parseInt body.receiver_user_id) :
    ∃ msg, validate body = .error ⟨400, .message msg⟩ := by
  unfold validate
  simp only
  cases ha : parseInt body.amount_cent with
  | none => exact ⟨_, rfl⟩
  | some amount =>
    by_cases hpos : amount ≤ 0
    · simp only [hpos, if_true]
      exact ⟨_, rfl⟩
    · simp only [hpos, if_false]
      cases hc : stringOrNull toLowerCase body.currency with
      | none => exact ⟨_, rfl⟩
      | some cur =>
        cases hs : parseInt body.sender_user_id with
        | none => exact ⟨_, rfl⟩
        | some sender =>
          cases hr : parseInt body.receiver_user_id with
          | none => exact ⟨_, rfl⟩
          | some receiver =>
            cases hk : stringOrNull trim body.idempotency_key with
            | none => exact ⟨_, rfl⟩
            | some key =>
              simp only
              by_cases hmiss : cur = "" ∨ sender = 0 ∨ receiver = 0 ∨ key = ""
              · simp only [hmiss, if_true]
                exact ⟨_, rfl⟩
              · simp only [hmiss, if_false]
                by_cases hsame : sender = receiver
                · simp only [hsame, if_true]
                  exact ⟨_, rfl⟩
                · exfalso
                  simp only [not_or] at hmiss
                  obtain ⟨h1, h2, h3, h4⟩ := hmiss
                  rcases hbad with h | h | h | h | h | h
                  · exact hpos (h amount ha)
                  · rw [hc] at h
                    simp [truthy, h1] at h
                  · exact h2 (h sender hs)
                  · exact h3 (h receiver hr)
                  · rw [hk] at h
                    simp [truthy, h4] at h
                  · rw [hs, hr] at h
                    exact hsame (Option.some.inj h)

/-- C5, as amended. A creation request is answered 400 with a message, and nothing else
happens (the world, trace included, is as before: no store query or write, no processor call,
no notification), whenever `Number.parseInt` of the amount is `NaN` or not above zero, or the
currency is not a non-empty text, or the parsed sender id or receiver id is `NaN` or 0, or the
idempotency key is not a text or is blank, or the parsed sender id equals the parsed receiver
id. -/
theorem createTransaction_rejects_invalid (env : Env) (w : World) (body : CreateBody)
    (hbad : (∀ n, parseInt body.amount_cent = some n → n ≤ 0) ∨
      truthy (stringOrNull toLowerCase body.currency) = false ∨
      (∀ n, parseInt body.sender_user_id = some n → n = 0) ∨
      (∀ n, parseInt body.receiver_user_id = some n → n = 0) ∨
      truthy (stringOrNull trim body.idempotency_key) = false ∨
      parseInt body.sender_user_id = parseInt body.receiver_user_id) :
    ∃ msg, createTransaction env w body = (w, ⟨400, .message msg⟩) := by
  obtain ⟨msg, hmsg⟩ := validate_rejects body hbad
  refine ⟨msg, ?_⟩
  unfold createTransaction
  rw [hmsg]

/-- C5, as amended, at a concrete input: sender and receiver are both user 1. -/
theorem createTransaction_rejects_invalid_witness :
    parseInt (.num 1) = parseInt (.str "1") ∧
    ∃ msg, createTransaction sampleEnv sampleWorld
      ⟨.num 500, .null, .str "usd", .num 1, .str "1", .str "k9"⟩ =
      (sampleWorld, ⟨400, .message msg⟩) :=
  ⟨by decide,
    createTransaction_rejects_invalid sampleEnv sampleWorld
      ⟨.num 500, .null, .str "usd", .num 1, .str "1", .str "k9"⟩
      (Or.inr (Or.inr (Or.inr (Or.inr (Or.inr (by decide))))))⟩

/-- C5 as stated fails for the amount: the text "12.5" is not a positive integer, yet
`parseInt` reads 12 from it and the request passes validation: a pending row with amount 12 is
inserted and the processor is asked to create an intent. -/
theorem fractional_amount_accepted :
    denotesPositiveInteger fractionalAmountBody.amount_cent = false ∧
    (createTransaction sampleEnv sampleWorld fractionalAmountBody).2.status = 201 ∧
    (createTransaction sampleEnv sampleWorld fractionalAmountBody).1.transactions.map
      (fun t => (t.transaction_id, t.amount_cents, t.status)) =
      [(1, 1000, "pending"), (2, 12, "pending")] ∧
    processorCalls (createTransaction sampleEnv sampleWorld fractionalAmountBody).1
      sampleWorld =
      [.stripeCreate ⟨12, "usd", "Payment from user:1", "2", "1", "2"⟩] := by
  decide

theorem foldl_max_id_ge (ts : List Transaction) (m : Nat) :
    m ≤ ts.foldl (fun m t => max m (t.transaction_id + 1)) m ∧
    ∀ t ∈ ts, t.transaction_id < ts.foldl (fun m t => max m (t.transaction_id + 1)) m := by
  induction ts generalizing m with
  | nil => simp
  | cons u us ih =>
    simp only [List.foldl_cons, List.mem_cons]
    obtain ⟨h1, h2⟩ := ih (max m (u.transaction_id + 1))
    refine ⟨le_trans (le_max_left _ _) h1, ?_⟩
    intro t ht
    rcases ht with ht | ht
    · subst ht
      exact lt_of_lt_of_le (Nat.lt_succ_self _) (le_trans (le_max_right _ _) h1)
    · exact h2 t ht

/-- The serial id of a new row is the id of no stored row. -/
theorem nextTransactionId_fresh (ts : List Transaction) :
    ∀ t ∈ ts, t.transaction_id ≠ nextTransactionId ts := by
  intro t ht
  exact Nat.ne_of_lt ((foldl_max_id_ge ts 1).2 t ht)

theorem updateWhereId_append_fresh (id : Nat) (f : Transaction → Transaction)
    (ts : List Transaction) (row : Transaction) (hrow : row.transaction_id = id)
    (hfresh : ∀ t ∈ ts, t.transaction_id ≠ id) :
    updateWhereId id f (ts ++ [row]) = ts ++ [f row] := by
  unfold updateWhereId
  rw [List.map_append]
  congr 1
  · conv_rhs => rw [← List.map_id ts]
    apply List.map_congr_left
    intro t ht
    simp [hfresh t ht]
  · simp [hrow]

theorem filter_eq_nil_of_forall_ne (ts : List Transaction) (key : String)
    (hnew : ∀ t ∈ ts, t.idempotency_key ≠ key) :
    ts.filter (fun t => t.idempotency_key = key) = [] := by
  rw [List.filter_eq_nil_iff]
  intro t ht
  simpa using hnew t ht

theorem createTransaction_processor_error (env : Env) (w : World) (body : CreateBody)
    (req : ValidRequest) (e : String)
    (hvalid : validate body = .ok req)
    (hnew : ∀ t ∈ w.transactions, t.idempotency_key ≠ req.idempotency_key)
    (herr : env.stripeCreate (createIntentParams req (pendingRow env w req)) = .error e) :
    createTransaction env w body =
      (notify env
        { w with
          transactions := w.transactions ++
            [{ pendingRow env w req with status := "failed", error_message := some e }]
          trace := w.trace ++
            [.db (.selectByIdempotencyKey req.idempotency_key),
             .db (.insertTransaction (pendingRow env w req).transaction_id),
             .stripeCreate (createIntentParams req (pendingRow env w req)),
             .db (.markFailed (pendingRow env w req).transaction_id e)] }
        (pendingRow env w req).transaction_id (fun d => d),
       ⟨500, .failure "Failed to create payment intent" e⟩) := by
  have hfil := filter_eq_nil_of_forall_ne w.transactions req.idempotency_key hnew
  have hrow : pendingRow env (w.emit (.db (.selectByIdempotencyKey req.idempotency_key))) req =
      pendingRow env w req := rfl
  have hupd := updateWhereId_append_fresh (pendingRow env w req).transaction_id
    (fun t => { t with status := "failed", error_message := some e }) w.transactions
    (pendingRow env w req) rfl (nextTransactionId_fresh w.transactions)
  unfold createTransaction
  simp only [hvalid, emit_transactions, hfil, hrow, herr]
  simp only [World.emit, hupd, List.append_assoc, List.cons_append, List.nil_append]

theorem createTransaction_processor_ok (env : Env) (w : World) (body : CreateBody)
    (req : ValidRequest) (pi : PaymentIntent)
    (hvalid : validate body = .ok req)
    (hnew : ∀ t ∈ w.transactions, t.idempotency_key ≠ req.idempotency_key)
    (hok : env.stripeCreate (createIntentParams req (pendingRow env w req)) = .ok pi) :
    createTransaction env w body =
      ({ w with
          transactions := w.transactions ++
            [{ pendingRow env w req with stripe_intent_id := some pi.id }]
          trace := w.trace ++
            [.db (.selectByIdempotencyKey req.idempotency_key),
             .db (.insertTransaction (pendingRow env w req).transaction_id),
             .stripeCreate (createIntentParams req (pendingRow env w req)),
             .db (.setIntentId (pendingRow env w req).transaction_id pi.id)] },
       ⟨201, .created "Transaction created"
          { transaction_id := (pendingRow env w req).transaction_id
            amount_cents := req.amount_cent
            currency := req.currency
            status := "pending"
            created_at := w.now }
          pi.client_secret⟩) := by
  have hfil := filter_eq_nil_of_forall_ne w.transactions req.idempotency_key hnew
  have hrow : pendingRow env (w.emit (.db (.selectByIdempotencyKey req.idempotency_key))) req =
      pendingRow env w req := rfl
  have hupd := updateWhereId_append_fresh (pendingRow env w req).transaction_id
    (fun t => { t with stripe_intent_id := some pi.id }) w.transactions
    (pendingRow env w req) rfl (nextTransactionId_fresh w.transactions)
  unfold createTransaction
  simp only [hvalid, emit_transactions, hfil, hrow, hok]
  simp only [World.emit, hupd, List.append_assoc, List.cons_append, List.nil_append]
  rfl

/-- C6. A creation request that passes validation and whose key is the key of no stored
transaction. The events start with the lookup by key, the insertion of the new row (status
pending, no intent id) and the call to the processor, in this order, and that call is the only
processor call. If the call raises with message e, the table ends as the old rows followed by
the new row with status failed, error message e and no intent id, and the answer is 500 with
the processor error e, whether or not a mail could be sent. If the call returns an intent, the
table ends as the old rows followed by the new row with status pending and that intent id, and
the answer is 201 with the transaction and the client secret of the intent. -/
theorem createTransaction_new_key (env : Env) (w : World) (body : CreateBody)
    (req : ValidRequest)
    (hvalid : validate body = .ok req)
    (hnew : ∀ t ∈ w.transactions, t.idempotency_key ≠ req.idempotency_key) :
    (pendingRow env w req).status = "pending" ∧
    (pendingRow env w req).stripe_intent_id = none ∧
    ((createTransaction env w body).1.since w).take 3 =
      [.db (.selectByIdempotencyKey req.idempotency_key),
       .db (.insertTransaction (pendingRow env w req).transaction_id),
       .stripeCreate (createIntentParams req (pendingRow env w req))] ∧
    processorCalls (createTransaction env w body).1 w =
      [.stripeCreate (createIntentParams req (pendingRow env w req))] ∧
    (∀ e, env.stripeCreate (createIntentParams req (pendingRow env w req)) = .error e →
      (createTransaction env w body).1.transactions = w.transactions ++
        [{ pendingRow env w req with status := "failed", error_message := some e }] ∧
      (createTransaction env w body).2 =
        ⟨500, .failure "Failed to create payment intent" e⟩) ∧
    (∀ pi, env.stripeCreate (createIntentParams req (pendingRow env w req)) = .ok pi →
      (createTransaction env w body).1.transactions = w.transactions ++
        [{ pendingRow env w req with stripe_intent_id := some pi.id }] ∧
      (createTransaction env w body).2 =
        ⟨201, .created "Transaction created"
          { transaction_id := (pendingRow env w req).transaction_id
            amount_cents := req.amount_cent
            currency := req.currency
            status := "pending"
            created_at := w.now }
          pi.client_secret⟩) := by
  refine ⟨rfl, rfl, ?_⟩
  cases hc : env.stripeCreate (createIntentParams req (pendingRow env w req)) with
  | error e =>
    have hrun := createTransaction_processor_error env w body req e hvalid hnew hc
    rw [hrun]
    simp only [notify_transactions]
    have htr := notify_trace env
      { w with
        transactions := w.transactions ++
          [{ pendingRow env w req with status := "failed", error_message := some e }]
        trace := w.trace ++
          [.db (.selectByIdempotencyKey req.idempotency_key),
           .db (.insertTransaction (pendingRow env w req).transaction_id),
           .stripeCreate (createIntentParams req (pendingRow env w req)),
           .db (.markFailed (pendingRow env w req).transaction_id e)] }
      (pendingRow env w req).transaction_id (fun d => d)
    refine ⟨?_, ?_, ?_, ?_⟩
    · rcases htr with h | ⟨d, delivered, _, h⟩ <;>
      · rw [since_append _ w _ (by rw [h]; simp only [List.append_assoc]; rfl)]
        rfl
    · unfold processorCalls
      rcases htr with h | ⟨d, delivered, _, h⟩ <;>
      · rw [since_append _ w _ (by rw [h]; simp only [List.append_assoc]; rfl)]
        rfl
    · intro e2 he2
      cases he2
      exact ⟨rfl, rfl⟩
    · intro pi hpi
      cases hpi
  | ok pi =>
    have hrun := createTransaction_processor_ok env w body req pi hvalid hnew hc
    rw [hrun]
    have hs : World.since
        { w with
          transactions := w.transactions ++
            [{ pendingRow env w req with stripe_intent_id := some pi.id }]
          trace := w.trace ++
            [.db (.selectByIdempotencyKey req.idempotency_key),
             .db (.insertTransaction (pendingRow env w req).transaction_id),
             .stripeCreate (createIntentParams req (pendingRow env w req)),
             .db (.setIntentId (pendingRow env w req).transaction_id pi.id)] } w =
        [.db (.selectByIdempotencyKey req.idempotency_key),
         .db (.insertTransaction (pendingRow env w req).transaction_id),
         .stripeCreate (createIntentParams req (pendingRow env w req)),
         .db (.setIntentId (pendingRow env w req).transaction_id pi.id)] :=
      since_append _ w _ rfl
    refine ⟨?_, ?_, ?_, ?_⟩
    · rw [hs]; rfl
    · unfold processorCalls
      rw [hs]; rfl
    · intro e he
      cases he
    · intro pi2 hpi2
      cases hpi2
      exact ⟨rfl, rfl⟩

/-- C6, at a concrete input: a valid request with the new key "k2" while the processor
declines and the mail transport is down. The new row ends failed with the processor message. -/
theorem createTransaction_new_key_witness :
    validate ⟨.num 500, .null, .str "USD", .num 1, .num 2, .str "k2"⟩ =
      .ok ⟨500, none, "usd", 1, 2, "k2"⟩ ∧
    (createTransaction failingEnv sampleWorld
      ⟨.num 500, .null, .str "USD", .num 1, .num 2, .str "k2"⟩).1.transactions =
      sampleWorld.transactions ++
        [{ pendingRow failingEnv sampleWorld ⟨500, none, "usd", 1, 2, "k2"⟩ with
            status := "failed", error_message := some "card declined" }] :=
  ⟨rfl,
    ((createTransaction_new_key failingEnv sampleWorld
      ⟨.num 500, .null, .str "USD", .num 1, .num 2, .str "k2"⟩ ⟨500, none, "usd", 1, 2, "k2"⟩
      rfl (by decide)).2.2.2.2.1 "card declined" rfl).1⟩

/-- The mail query finds details when the transaction exists and its sender and receiver are
rows of `users`; the details carry the status of the transaction. -/
theorem getTransactionDetailsForEmail_some (w : World) (id : Nat) (t : Transaction)
    (hfound : (selectById id w.transactions).head? = some t)
    (hsender : ∃ u ∈ w.users, u.user_id = t.sender_user_id)
    (hreceiver : ∃ u ∈ w.users, u.user_id = t.receiver_user_id) :
    ∃ d, (getTransactionDetailsForEmail w id).2 = some d ∧ d.status = t.status := by
  obtain ⟨rest, hsel⟩ := head?_eq_some_cons hfound
  obtain ⟨s, hs, hsid⟩ := hsender
  obtain ⟨r, hr, hrid⟩ := hreceiver
  have hsf : ∃ s1 ss, w.users.filter (fun u => u.user_id = t.sender_user_id) = s1 :: ss := by
    cases h : w.users.filter (fun u => u.user_id = t.sender_user_id) with
    | nil =>
      have : s ∈ w.users.filter (fun u => u.user_id = t.sender_user_id) := by
        simp [List.mem_filter, hs, hsid]
      rw [h] at this
      simp at this
    | cons s1 ss => exact ⟨s1, ss, rfl⟩
  have hrf : ∃ r1 rs, w.users.filter (fun u => u.user_id = t.receiver_user_id) = r1 :: rs := by
    cases h : w.users.filter (fun u => u.user_id = t.receiver_user_id) with
    | nil =>
      have : r ∈ w.users.filter (fun u => u.user_id = t.receiver_user_id) := by
        simp [List.mem_filter, hr, hrid]
      rw [h] at this
      simp at this
    | cons r1 rs => exact ⟨r1, rs, rfl⟩
  obtain ⟨s1, ss, hs1⟩ := hsf
  obtain ⟨r1, rs, hr1⟩ := hrf
  unfold getTransactionDetailsForEmail
  simp only [emit_transactions, emit_users, hsel, List.flatMap_cons, hs1, hr1, List.map_cons,
    List.cons_append]
  exact ⟨_, rfl, rfl⟩

theorem notify_trace_of_some (env : Env) (w : World) (id : Nat)
    (adjust : EmailDetails → EmailDetails) (d : EmailDetails)
    (hd : (getTransactionDetailsForEmail w id).2 = some d) :
    ∃ delivered, (notify env w id adjust).trace =
      w.trace ++ [.db (.selectEmailDetails id), .sendMail (adjust d) delivered] := by
  rcases notify_trace env w id adjust with h | ⟨d2, delivered, hd2, h⟩
  · exfalso
    unfold notify at h
    have h1 := getTransactionDetailsForEmail_world w id
    cases hg : getTransactionDetailsForEmail w id with
    | mk w1 od =>
      rw [hg] at hd h1
      simp only at hd h1
      subst hd
      subst h1
      simp only [hg] at h
      obtain ⟨delivered, hs⟩ :=
        sendTransactionEmail_trace env (w.emit (.db (.selectEmailDetails id))) (adjust d)
      rw [hs] at h
      simp at h
  · rw [hd] at hd2
    cases hd2
    exact ⟨delivered, h⟩

theorem notify_trace_of_none (env : Env) (w : World) (id : Nat)
    (adjust : EmailDetails → EmailDetails)
    (hd : (getTransactionDetailsForEmail w id).2 = none) :
    (notify env w id adjust).trace = w.trace ++ [.db (.selectEmailDetails id)] := by
  rcases notify_trace env w id adjust with h | ⟨d2, delivered, hd2, _⟩
  · exact h
  · rw [hd] at hd2
    cases hd2

/-- The mail query reads the rows of `transactions` with the id and the rows of `users` only:
after an update of the status, error message and update time of the rows with that id it
finds the same details, with the new status. -/
theorem getTransactionDetailsForEmail_restatus (w w1 : World) (id : Nat) (s : String)
    (m : Option String) (u : Int)
    (ht : w1.transactions = updateWhereId id
      (fun t => { t with status := s, error_message := m, updated_at := u }) w.transactions)
    (hu : w1.users = w.users) :
    (getTransactionDetailsForEmail w1 id).2 =
      ((getTransactionDetailsForEmail w id).2).map (fun d => { d with status := s }) := by
  have hrows :
      (selectById id w1.transactions).flatMap (fun t =>
        (w1.users.filter (fun u => u.user_id = t.sender_user_id)).flatMap (fun sender =>
          (w1.users.filter (fun u => u.user_id = t.receiver_user_id)).map (fun receiver =>
            (t, sender, receiver)))) =
      ((selectById id w.transactions).flatMap (fun t =>
        (w.users.filter (fun u => u.user_id = t.sender_user_id)).flatMap (fun sender =>
          (w.users.filter (fun u => u.user_id = t.receiver_user_id)).map (fun receiver =>
            (t, sender, receiver))))).map
        (fun row : Transaction × User × User =>
          (({ row.1 with status := s, error_message := m, updated_at := u } : Transaction),
            row.2.1, row.2.2)) := by
    rw [ht, hu, selectById_updateWhereId]
    · rw [List.flatMap_map, List.map_flatMap]
      congr 1
      funext t
      rw [List.map_flatMap]
      congr 1
      funext sender
      rw [List.map_map]
      rfl
    · intro t; rfl
  unfold getTransactionDetailsForEmail
  simp only [emit_transactions, emit_users]
  rw [hrows]
  cases (selectById id w.transactions).flatMap (fun t =>
      (w.users.filter (fun u => u.user_id = t.sender_user_id)).flatMap (fun sender =>
        (w.users.filter (fun u => u.user_id = t.receiver_user_id)).map (fun receiver =>
          (t, sender, receiver)))) with
  | nil => rfl
  | cons row rows => rfl

/-- The "failed" handler once five attempts have been made, on an existing transaction: the
row is set to stuck with the summary message; then the mail query runs, and one mail, with
status stuck, is handed to the transport if the query finds details, none if it finds no
row. -/
theorem onFailed_exhausted (env : Env) (w : World) (job : Job) (err : String)
    (tx : Transaction)
    (hfound : (selectById job.transaction_id w.transactions).head? = some tx)
    (hfive : 5 ≤ job.attemptsMade) :
    statusOf (onFailed env w job err) job.transaction_id = some "stuck" ∧
    errorMessageOf (onFailed env w job err) job.transaction_id =
      some (some ("Reconciliation failed after " ++ toString job.attemptsMade ++
        " attempts: " ++ err)) ∧
    (∀ d0, (getTransactionDetailsForEmail w job.transaction_id).2 = some d0 →
      ∃ delivered, (onFailed env w job err).trace = w.trace ++
        [.db (.markStuck job.transaction_id
            ("Reconciliation failed after " ++ toString job.attemptsMade ++
              " attempts: " ++ err)),
         .db (.selectEmailDetails job.transaction_id),
         .sendMail { d0 with status := "stuck" } delivered]) ∧
    ((getTransactionDetailsForEmail w job.transaction_id).2 = none →
      (onFailed env w job err).trace = w.trace ++
        [.db (.markStuck job.transaction_id
            ("Reconciliation failed after " ++ toString job.attemptsMade ++
              " attempts: " ++ err)),
         .db (.selectEmailDetails job.transaction_id)]) := by
  have hsel : (selectById job.transaction_id (updateWhereId job.transaction_id
      (fun t => { t with status := "stuck",
                         error_message := some ("Reconciliation failed after " ++
                           toString job.attemptsMade ++ " attempts: " ++ err),
                         updated_at := w.now }) w.transactions)).head? =
      some { tx with status := "stuck",
                     error_message := some ("Reconciliation failed after " ++
                       toString job.attemptsMade ++ " attempts: " ++ err),
                     updated_at := w.now } := by
    rw [selectById_updateWhereId]
    · simp [List.head?_map, hfound]
    · intro t; rfl
  have hdet := getTransactionDetailsForEmail_restatus w
    ({ w with
        transactions := updateWhereId job.transaction_id
          (fun t => { t with status := "stuck",
                             error_message := some ("Reconciliation failed after " ++
                               toString job.attemptsMade ++ " attempts: " ++ err),
                             updated_at := w.now }) w.transactions }.emit
      (.db (.markStuck job.transaction_id ("Reconciliation failed after " ++
        toString job.attemptsMade ++ " attempts: " ++ err))))
    job.transaction_id "stuck"
    (some ("Reconciliation failed after " ++ toString job.attemptsMade ++
      " attempts: " ++ err)) w.now rfl rfl
  unfold onFailed
  simp only [ge_iff_le, hfive, if_true]
  refine ⟨?_, ?_, ?_, ?_⟩
  · simp only [statusOf, notify_transactions, emit_transactions, hsel]
    rfl
  · simp only [errorMessageOf, notify_transactions, emit_transactions, hsel]
    rfl
  · intro d0 hd0
    rw [hd0] at hdet
    obtain ⟨delivered, htr⟩ := notify_trace_of_some env _ job.transaction_id
      (fun d => { d with status := "stuck" }) _ hdet
    refine ⟨delivered, ?_⟩
    rw [htr]
    simp
  · intro hnone
    rw [hnone] at hdet
    rw [notify_trace_of_none env _ job.transaction_id _ hdet]
    simp

theorem process_retrieve_error (env : Env) (w : World) (id : Nat) (tx : Transaction)
    (intent : String) (e : String)
    (hfound : (selectById id w.transactions).head? = some tx)
    (hopen : ["successful", "failed", "cancelled"].contains tx.status = false)
    (hintent : tx.stripe_intent_id = some intent) (hne : intent ≠ "")
    (hret : env.stripeRetrieve intent = .error e) :
    process env w id =
      (logReconciliationAttempt ((w.emit (.db (.selectById id))).emit (.stripeRetrieve intent))
        id none none (some e), .error e) := by
  obtain ⟨rest, hsel⟩ := head?_eq_some_cons hfound
  unfold process
  simp only [emit_transactions, hsel, hopen, hintent, truthy, Option.getD_some, hret]
  have : (intent != "") = true := by simpa using hne
  simp [this]

/-- A job whose every attempt fails at the retrieval of the intent, run from `attemptsMade`
up to its fifth attempt: the attempts before the last leave the tables of transactions and
users as they were and add neither a stuck update nor a mail; the run ends with the "failed"
handler at attemptsMade 5. -/
theorem runJob_failing (env : Env) (tx : Transaction) (intent e : String)
    (hopen : ["successful", "failed", "cancelled"].contains tx.status = false)
    (hintent : tx.stripe_intent_id = some intent) (hne : intent ≠ "")
    (hret : env.stripeRetrieve intent = .error e) :
    ∀ (remaining : Nat) (w : World) (job : Job),
      job.attemptsMade + (remaining + 1) = 5 → job.opts.attempts = 5 →
      (selectById job.transaction_id w.transactions).head? = some tx →
      ∃ w5 job5 l0, runJob env (remaining + 1) w job = onFailed env w5 job5 e ∧
        job5.transaction_id = job.transaction_id ∧ job5.attemptsMade = 5 ∧
        w5.transactions = w.transactions ∧ w5.users = w.users ∧
        w5.trace = w.trace ++ l0 ∧
        l0.filter Event.isMarkStuck = [] ∧ l0.filter Event.isNotification = [] := by
  intro remaining
  induction remaining with
  | zero =>
    intro w job hcount hopts hfound
    have hp := process_retrieve_error env w job.transaction_id tx intent e hfound hopen
      hintent hne hret
    have hlt : ¬ (job.attemptsMade + 1 < job.opts.attempts) := by omega
    have hrun : runJob env (0 + 1) w job = onFailed env
        (logReconciliationAttempt
          ((w.emit (.db (.selectById job.transaction_id))).emit (.stripeRetrieve intent))
          job.transaction_id none none (some e))
        { job with attemptsMade := job.attemptsMade + 1 } e := by
      simp only [runJob, runAttempt, hp, hlt, if_false]
    refine ⟨_, _,
      [.db (.selectById job.transaction_id), .stripeRetrieve intent,
       .db (.selectStatus job.transaction_id), .db (.insertAttempt job.transaction_id)],
      hrun, rfl, by simp only; omega, rfl, rfl, ?_, rfl, rfl⟩
    simp only [logReconciliationAttempt_trace, emit_trace, List.append_assoc,
      List.cons_append, List.nil_append]
  | succ n ih =>
    intro w job hcount hopts hfound
    have hp := process_retrieve_error env w job.transaction_id tx intent e hfound hopen
      hintent hne hret
    have hnot : ¬ (({ job with attemptsMade := job.attemptsMade + 1 } : Job).attemptsMade ≥ 5) := by
      simp only; omega
    have hlt : job.attemptsMade + 1 < job.opts.attempts := by omega
    have hrun : runJob env (n + 1 + 1) w job = runJob env (n + 1)
        (logReconciliationAttempt
          ((w.emit (.db (.selectById job.transaction_id))).emit (.stripeRetrieve intent))
          job.transaction_id none none (some e))
        { job with attemptsMade := job.attemptsMade + 1 } := by
      simp only [runJob, runAttempt, hp, onFailed, hnot, if_false, hlt, if_true]
    obtain ⟨w5, job5, l0, hrun5, hid, hmade, htx, hus, htr, hstuck, hmail⟩ := ih
      (logReconciliationAttempt
        ((w.emit (.db (.selectById job.transaction_id))).emit (.stripeRetrieve intent))
        job.transaction_id none none (some e))
      { job with attemptsMade := job.attemptsMade + 1 } (by simp only; omega) hopts
      (by simpa using hfound)
    refine ⟨w5, job5,
      [.db (.selectById job.transaction_id), .stripeRetrieve intent,
       .db (.selectStatus job.transaction_id), .db (.insertAttempt job.transaction_id)] ++ l0,
      by rw [hrun, hrun5], hid, hmade, by rw [htx]; rfl, by rw [hus]; rfl, ?_, ?_, ?_⟩
    · rw [htr]
      simp only [logReconciliationAttempt_trace, emit_trace, List.append_assoc,
        List.cons_append, List.nil_append]
    · simpa [Event.isMarkStuck] using hstuck
    · simpa [Event.isNotification] using hmail

/-- The mail query reads the tables of transactions and users only. -/
theorem getTransactionDetailsForEmail_congr (w w1 : World) (id : Nat)
    (ht : w1.transactions = w.transactions) (hu : w1.users = w.users) :
    (getTransactionDetailsForEmail w1 id).2 = (getTransactionDetailsForEmail w id).2 := by
  unfold getTransactionDetailsForEmail
  simp only [emit_transactions, emit_users, ht, hu]
  generalize ((selectById id w.transactions).flatMap _) = rows
  cases rows with
  | nil => rfl
  | cons row rest => rfl

/-- C7, as amended. Escalation, for an existing transaction. When the "failed" handler runs
with attemptsMade at least 5 and error message e, the status becomes stuck and the error
message becomes "Reconciliation failed after N attempts: e"; then exactly one mail, the
details of the transaction with status stuck, is handed to the transport if the mail query
(the transaction joined with its sender and its receiver in `users`) finds a row, and no mail
if it finds none. When the handler runs with attemptsMade below 5 nothing changes at all. So
a job with five attempts on a pending or under_review transaction whose retrieval raises e
every time ends with the transaction stuck, having set it to stuck exactly once and sent
exactly one mail, with status stuck, if the mail query finds a row, and none otherwise. -/
theorem escalation_to_stuck (env : Env) (w : World) (job : Job) (e : String)
    (tx : Transaction)
    (hfound : (selectById job.transaction_id w.transactions).head? = some tx) :
    (5 ≤ job.attemptsMade →
      statusOf (onFailed env w job e) job.transaction_id = some "stuck" ∧
      errorMessageOf (onFailed env w job e) job.transaction_id =
        some (some ("Reconciliation failed after " ++ toString job.attemptsMade ++
          " attempts: " ++ e)) ∧
      (∀ d0, (getTransactionDetailsForEmail w job.transaction_id).2 = some d0 →
        ∃ delivered, notifications (onFailed env w job e) w =
          [.sendMail { d0 with status := "stuck" } delivered]) ∧
      ((getTransactionDetailsForEmail w job.transaction_id).2 = none →
        notifications (onFailed env w job e) w = [])) ∧
    (job.attemptsMade < 5 → onFailed env w job e = w) ∧
    (∀ intent, job.attemptsMade = 0 → job.opts.attempts = 5 →
      (tx.status = "pending" ∨ tx.status = "under_review") →
      tx.stripe_intent_id = some intent → intent ≠ "" →
      env.stripeRetrieve intent = .error e →
      statusOf (runJob env 5 w job) job.transaction_id = some "stuck" ∧
      (((runJob env 5 w job).since w).filter Event.isMarkStuck).length = 1 ∧
      (∀ d0, (getTransactionDetailsForEmail w job.transaction_id).2 = some d0 →
        ∃ delivered, notifications (runJob env 5 w job) w =
          [.sendMail { d0 with status := "stuck" } delivered]) ∧
      ((getTransactionDetailsForEmail w job.transaction_id).2 = none →
        notifications (runJob env 5 w job) w = [])) := by
  refine ⟨?_, ?_, ?_⟩
  · intro hfive
    obtain ⟨hst, hmsg, hsome, hnone⟩ := onFailed_exhausted env w job e tx hfound hfive
    refine ⟨hst, hmsg, ?_, ?_⟩
    · intro d0 hd0
      obtain ⟨delivered, htr⟩ := hsome d0 hd0
      refine ⟨delivered, ?_⟩
      unfold notifications
      rw [since_append _ w _ htr]
      rfl
    · intro hd
      unfold notifications
      rw [since_append _ w _ (hnone hd)]
      rfl
  · intro hlt
    unfold onFailed
    have : ¬ (job.attemptsMade ≥ 5) := by omega
    simp only [this, if_false]
  · intro intent hzero hopts hstatus hintent hne hret
    obtain ⟨w5, job5, l0, hrun, hid, hmade, htx, hus, htr, hstuck, hmail⟩ :=
      runJob_failing env tx intent e (open_of_pending_or_under_review tx.status hstatus)
        hintent hne hret 4 w job (by omega) hopts hfound
    have hfound5 : (selectById job5.transaction_id w5.transactions).head? = some tx := by
      rw [hid, htx]; exact hfound
    have hdet : (getTransactionDetailsForEmail w5 job.transaction_id).2 =
        (getTransactionDetailsForEmail w job.transaction_id).2 :=
      getTransactionDetailsForEmail_congr w w5 _ htx hus
    obtain ⟨hst, _, hsome, hnone⟩ :=
      onFailed_exhausted env w5 job5 e tx hfound5 (by omega)
    rw [hrun]
    rw [hid] at hst hsome hnone
    rw [hdet] at hsome hnone
    refine ⟨hst, ?_, ?_, ?_⟩
    · by_cases hd : (getTransactionDetailsForEmail w job.transaction_id).2 = none
      · rw [since_append _ w _ (by rw [hnone hd, htr, List.append_assoc])]
        simp [Event.isMarkStuck, hstuck]
      · obtain ⟨d0, hd0⟩ := Option.ne_none_iff_exists'.mp hd
        obtain ⟨delivered, htr5⟩ := hsome d0 hd0
        rw [since_append _ w _ (by rw [htr5, htr, List.append_assoc])]
        simp [Event.isMarkStuck, hstuck]
    · intro d0 hd0
      obtain ⟨delivered, htr5⟩ := hsome d0 hd0
      refine ⟨delivered, ?_⟩
      unfold notifications
      rw [since_append _ w _ (by rw [htr5, htr, List.append_assoc])]
      simp [Event.isNotification, hmail]
    · intro hd
      unfold notifications
      rw [since_append _ w _ (by rw [hnone hd, htr, List.append_assoc])]
      simp [Event.isNotification, hmail]

/-- C7, as amended, at a concrete input: the fifth failure of a job on the pending
`sampleTx`, with the last error "processor unavailable", and the whole failing job. -/
theorem escalation_to_stuck_witness :
    (selectById 1 sampleWorld.transactions).head? = some sampleTx ∧
    errorMessageOf (onFailed failingEnv sampleWorld ⟨1, reconciliationJobOptions, 5⟩
      "processor unavailable") 1 =
      some (some "Reconciliation failed after 5 attempts: processor unavailable") ∧
    statusOf (runJob failingEnv 5 sampleWorld ⟨1, reconciliationJobOptions, 0⟩) 1 =
      some "stuck" ∧
    (((runJob failingEnv 5 sampleWorld ⟨1, reconciliationJobOptions, 0⟩).since
      sampleWorld).filter Event.isMarkStuck).length = 1 :=
  ⟨by decide,
    ((escalation_to_stuck failingEnv sampleWorld ⟨1, reconciliationJobOptions, 5⟩
      "processor unavailable" sampleTx (by decide)).1 (by decide)).2.1,
    ((escalation_to_stuck failingEnv sampleWorld ⟨1, reconciliationJobOptions, 0⟩
      "processor unavailable" sampleTx (by decide)).2.2
      "pi_1" rfl rfl (Or.inl rfl) rfl (by decide) rfl).1,
    ((escalation_to_stuck failingEnv sampleWorld ⟨1, reconciliationJobOptions, 0⟩
      "processor unavailable" sampleTx (by decide)).2.2
      "pi_1" rfl rfl (Or.inl rfl) rfl (by decide) rfl).2.1⟩

/-- C7 as stated fails on the mail: the handler sends it only if the mail query returns a
row. With no row of `users` for the sender and the receiver of the pending `sampleTx`, the
fifth failure sets the transaction to stuck and hands no mail to the transport, and so does a
job that fails five times in a row. -/
theorem stuck_without_alert :
    statusOf (onFailed sampleEnv sampleWorldNoUsers ⟨1, reconciliationJobOptions, 5⟩
      "processor unavailable") 1 = some "stuck" ∧
    notifications (onFailed sampleEnv sampleWorldNoUsers ⟨1, reconciliationJobOptions, 5⟩
      "processor unavailable") sampleWorldNoUsers = [] ∧
    statusOf (runJob failingEnv 5 sampleWorldNoUsers ⟨1, reconciliationJobOptions, 0⟩) 1 =
      some "stuck" ∧
    notifications (runJob failingEnv 5 sampleWorldNoUsers ⟨1, reconciliationJobOptions, 0⟩)
      sampleWorldNoUsers = [] := by
  decide

/-- C2, as amended. For a transaction whose status is successful, failed or cancelled,
whatever the processor would report: the process handler completes without raising, leaves the
table of transactions, hence the status, unchanged and makes no processor call. The "failed"
handler of a job on that transaction never calls the processor; with attemptsMade below 5 it
changes nothing, and with attemptsMade at least 5 it sets the status to stuck, whatever the
status was. -/
theorem resolved_status_under_reconciliation (env : Env) (w : World) (id : Nat)
    (tx : Transaction)
    (hfound : (selectById id w.transactions).head? = some tx)
    (hres : tx.status = "successful" ∨ tx.status = "failed" ∨ tx.status = "cancelled") :
    (process env w id).2 = .ok () ∧
    (process env w id).1.transactions = w.transactions ∧
    statusOf (process env w id).1 id = some tx.status ∧
    processorCalls (process env w id).1 w = [] ∧
    (∀ (job : Job) (err : String), job.transaction_id = id → job.attemptsMade < 5 →
      onFailed env w job err = w) ∧
    (∀ (job : Job) (err : String), job.transaction_id = id → 5 ≤ job.attemptsMade →
      statusOf (onFailed env w job err) id = some "stuck" ∧
      processorCalls (onFailed env w job err) w = []) := by
  have hp := process_resolved env w id tx hfound hres
  have hs : (w.emit (.db (.selectById id))).since w = [.db (.selectById id)] :=
    since_append _ w _ (by simp)
  refine ⟨by rw [hp], by rw [hp]; rfl, ?_, ?_, ?_, ?_⟩
  · rw [hp]
    exact statusOf_of_head _ _ _ (by simpa using hfound)
  · rw [hp]
    unfold processorCalls
    rw [hs]
    rfl
  · intro job err _ hlt
    unfold onFailed
    have : ¬ (job.attemptsMade ≥ 5) := by omega
    simp only [this, if_false]
  · intro job err hid hfive
    subst hid
    obtain ⟨hst, _, hsome, hnone⟩ := onFailed_exhausted env w job err tx hfound hfive
    refine ⟨hst, ?_⟩
    unfold processorCalls
    cases hd : (getTransactionDetailsForEmail w job.transaction_id).2 with
    | none =>
      rw [since_append _ w _ (hnone hd)]
      rfl
    | some d0 =>
      obtain ⟨delivered, htr⟩ := hsome d0 hd
      rw [since_append _ w _ htr]
      rfl

/-- C2, as amended, at a concrete input: the successful `sampleTx` under the process handler
and under the "failed" handler after a third failed attempt. -/
theorem resolved_status_under_reconciliation_witness :
    (selectById 1 (sampleWorldWithStatus "successful").transactions).head? =
      some { sampleTx with status := "successful" } ∧
    statusOf (process sampleEnv (sampleWorldWithStatus "successful") 1).1 1 =
      some "successful" ∧
    onFailed sampleEnv (sampleWorldWithStatus "successful") ⟨1, reconciliationJobOptions, 3⟩
      "connection refused" = sampleWorldWithStatus "successful" :=
  ⟨by decide,
    (resolved_status_under_reconciliation sampleEnv (sampleWorldWithStatus "successful") 1
      { sampleTx with status := "successful" } (by decide) (Or.inl rfl)).2.2.1,
    (resolved_status_under_reconciliation sampleEnv (sampleWorldWithStatus "successful") 1
      { sampleTx with status := "successful" } (by decide) (Or.inl rfl)).2.2.2.2.1
      ⟨1, reconciliationJobOptions, 3⟩ "connection refused" rfl (by decide)⟩

/-- C2 as stated fails twice. The guard of the process handler lists successful, failed and
cancelled only: on the stuck `sampleTx`, whose intent the processor reports as succeeded, it
retrieves the intent from the processor and leaves the transaction successful. The "failed"
handler reads no status: run with attemptsMade 5 for a job on the successful `sampleTx`, and
likewise on the cancelled one, it sets the transaction to stuck. -/
theorem terminal_status_not_immutable :
    statusOf (sampleWorldWithStatus "stuck") 1 = some "stuck" ∧
    statusOf (process sampleEnv (sampleWorldWithStatus "stuck") 1).1 1 = some "successful" ∧
    processorCalls (process sampleEnv (sampleWorldWithStatus "stuck") 1).1
      (sampleWorldWithStatus "stuck") = [.stripeRetrieve "pi_1"] ∧
    statusOf (sampleWorldWithStatus "successful") 1 = some "successful" ∧
    statusOf (onFailed sampleEnv (sampleWorldWithStatus "successful")
      ⟨1, reconciliationJobOptions, 5⟩ "connection refused") 1 = some "stuck" ∧
    statusOf (sampleWorldWithStatus "cancelled") 1 = some "cancelled" ∧
    statusOf (onFailed sampleEnv (sampleWorldWithStatus "cancelled")
      ⟨1, reconciliationJobOptions, 5⟩ "connection refused") 1 = some "stuck" := by
  decide

/-- C8, as amended. One execution of the reconciliation worker on an existing transaction
appends exactly one attempt when it consults the processor, that is when the transaction is
not successful, failed or cancelled and has an intent id, whatever the processor answers
(a known status, an unknown status, or an error). When the transaction is successful, failed
or cancelled, or has no intent id, the execution appends no attempt. -/
theorem process_attempt_log (env : Env) (w : World) (id : Nat) (tx : Transaction)
    (hfound : (selectById id w.transactions).head? = some tx) :
    ((tx.status = "successful" ∨ tx.status = "failed" ∨ tx.status = "cancelled") →
      (process env w id).1.attempts = w.attempts) ∧
    (¬ (tx.status = "successful" ∨ tx.status = "failed" ∨ tx.status = "cancelled") →
      (tx.stripe_intent_id = none ∨ tx.stripe_intent_id = some "") →
      (process env w id).1.attempts = w.attempts) ∧
    (¬ (tx.status = "successful" ∨ tx.status = "failed" ∨ tx.status = "cancelled") →
      ∀ intent, tx.stripe_intent_id = some intent → intent ≠ "" →
      ∃ a, (process env w id).1.attempts = w.attempts ++ [a] ∧ a.transaction_id = id) := by
  have hopen_of : ¬ (tx.status = "successful" ∨ tx.status = "failed" ∨
      tx.status = "cancelled") →
      ["successful", "failed", "cancelled"].contains tx.status = false := by
    intro h
    simpa using h
  refine ⟨?_, ?_, ?_⟩
  · intro hres
    rw [process_resolved env w id tx hfound hres]
    rfl
  · intro hno hnone
    have hint : truthy tx.stripe_intent_id = false := by
      rcases hnone with hm | hm <;> simp [hm, truthy]
    rw [process_no_intent env w id tx hfound (hopen_of hno) hint]
    rfl
  · intro hno intent hintent hne
    cases hret : env.stripeRetrieve intent with
    | error e =>
      rw [process_retrieve_error env w id tx intent e hfound (hopen_of hno) hintent hne hret]
      exact ⟨_, rfl, rfl⟩
    | ok pi =>
      rw [process_retrieved env w id tx intent pi hfound (hopen_of hno) hintent hne hret]
      simp only
      split_ifs
      · exact ⟨_, by simp only [notify_attempts, updateTransactionStatus_attempts]; rfl, rfl⟩
      · exact ⟨_, rfl, rfl⟩
      · exact ⟨_, rfl, rfl⟩

/-- C8, as amended, at a concrete input: the pending `sampleTx` while the processor is
unavailable; the one attempt appended records the error. -/
theorem process_attempt_log_witness :
    (selectById 1 sampleWorld.transactions).head? = some sampleTx ∧
    ∃ a, (process failingEnv sampleWorld 1).1.attempts = sampleWorld.attempts ++ [a] ∧
      a.transaction_id = 1 :=
  ⟨by decide,
    (process_attempt_log failingEnv sampleWorld 1 sampleTx (by decide)).2.2 (by decide)
      "pi_1" rfl (by decide)⟩

/-- C8 as stated fails on the two early returns of the process handler: on the successful
`sampleTx` and on the pending `sampleTx` without intent id the execution completes and
appends no attempt. -/
theorem early_return_logs_no_attempt :
    (process sampleEnv (sampleWorldWithStatus "successful") 1).2 = .ok () ∧
    (process sampleEnv (sampleWorldWithStatus "successful") 1).1.attempts = [] ∧
    (process sampleEnv sampleWorldNoIntent 1).2 = .ok () ∧
    statusOf (process sampleEnv sampleWorldNoIntent 1).1 1 = some "failed" ∧
    (process sampleEnv sampleWorldNoIntent 1).1.attempts = [] :=
  ⟨rfl, by decide, rfl, by decide, by decide⟩

/-- C9 at the failing input. `sampleTx` is pending and ten minutes old; its most recent
attempt is one minute old, an earlier one three minutes old. The join yields one row per
attempt and the row of the older attempt passes the filter, so the scan selects the
transaction and adds a job for it. With two attempts older than two minutes both rows pass
and the scan adds two jobs for the one transaction. -/
theorem scan_ignores_most_recent_attempt :
    selectStale recentlyCheckedWorld = [sampleTx] ∧
    (scheduleReconciliation sampleEnv recentlyCheckedWorld).jobs.map
      (fun j => j.transaction_id) = [1] ∧
    selectStale twiceCheckedWorld = [sampleTx, sampleTx] ∧
    (scheduleReconciliation sampleEnv twiceCheckedWorld).jobs.map
      (fun j => j.transaction_id) = [1, 1] := by
  decide

/-- Lines 156-160 on parameters that `parseInt` reads a number from (and on absent ones):
the limit is between 1 and 100, the page at least 1 and the offset not negative. -/
theorem paginationParams_numeric (q : ListQuery) (p l : Int)
    (hp : parseInt (if q.page = .undefined then .num 1 else q.page) = some p)
    (hl : parseInt (if q.limit = .undefined then .num 20 else q.limit) = some l) :
    ∃ page limit offset, paginationParams q = (some page, some limit, some offset) ∧
      1 ≤ page ∧ 1 ≤ limit ∧ limit ≤ 100 ∧ offset = (page - 1) * limit ∧ 0 ≤ offset := by
  refine ⟨max 1 p, max 1 (min 100 l), (max 1 p - 1) * max 1 (min 100 l), ?_, ?_, ?_, ?_, rfl, ?_⟩
  · simp only [paginationParams, hp, hl, mathMax, mathMin]
  · exact le_max_left _ _
  · exact le_max_left _ _
  · exact max_le (by norm_num) (min_le_left _ _)
  · apply mul_nonneg
    · have : (1 : Int) ≤ max 1 p := le_max_left _ _
      omega
    · have : (1 : Int) ≤ max 1 (min 100 l) := le_max_left _ _
      omega

/-- C10 at the failing input. For the query string `page=abc&limit=abc`, `parseInt` gives `NaN`
and `Math.max` and `Math.min` pass it on: page, limit and offset are all `NaN`, the store is
queried with `LIMIT NaN OFFSET NaN`, and if it answers, `NaN` is what the response reports as
page and limit. -/
theorem pagination_nan_on_text :
    paginationParams ⟨.str "abc", .str "abc", .undefined, .undefined⟩ = (none, none, none) ∧
    getTransactions emptyListingStore ⟨.str "abc", .str "abc", .undefined, .undefined⟩ =
      ⟨200, .listing "Transactions retrieved" [] ⟨0, none, none, none⟩⟩ ∧
    paginationParams ⟨.undefined, .str "many", .undefined, .undefined⟩ =
      (some 1, none, none) := by
  decide

/-- The notification rule on the path that consults the processor, for a transaction whose
sender and receiver are rows of `users`: exactly one mail, carrying the new status, is handed
to the transport when the mapped status differs from the current one and is successful or
failed; otherwise none is. -/
theorem process_retrieved_notifications (env : Env) (w : World) (id : Nat) (tx : Transaction)
    (intent : String) (pi : PaymentIntent)
    (hfound : (selectById id w.transactions).head? = some tx)
    (hopen : ["successful", "failed", "cancelled"].contains tx.status = false)
    (hintent : tx.stripe_intent_id = some intent) (hne : intent ≠ "")
    (hret : env.stripeRetrieve intent = .ok pi)
    (hsender : ∃ u ∈ w.users, u.user_id = tx.sender_user_id)
    (hreceiver : ∃ u ∈ w.users, u.user_id = tx.receiver_user_id) :
    (((mapStripeStatus pi tx.status).1 ≠ tx.status ∧
        ["successful", "failed"].contains (mapStripeStatus pi tx.status).1 = true) →
      ∃ d delivered, d.status = (mapStripeStatus pi tx.status).1 ∧
        notifications (process env w id).1 w = [.sendMail d delivered]) ∧
    (¬ ((mapStripeStatus pi tx.status).1 ≠ tx.status ∧
        ["successful", "failed"].contains (mapStripeStatus pi tx.status).1 = true) →
      notifications (process env w id).1 w = []) := by
  rw [process_retrieved env w id tx intent pi hfound hopen hintent hne hret]
  refine ⟨?_, ?_⟩
  · rintro ⟨hch, hn⟩
    simp only [ne_eq, hch, not_false_eq_true, if_true, hn]
    have hsel : (selectById id (updateTransactionStatus
        (logReconciliationAttempt
          ((w.emit (.db (.selectById id))).emit (.stripeRetrieve intent)) id
          (some pi.status) (some tx.status) none) id (mapStripeStatus pi tx.status).1
        (mapStripeStatus pi tx.status).2).transactions).head? =
        some { tx with status := (mapStripeStatus pi tx.status).1,
                       error_message := (mapStripeStatus pi tx.status).2,
                       updated_at := w.now } := by
      unfold updateTransactionStatus
      simp only [emit_transactions, logReconciliationAttempt_transactions]
      rw [selectById_updateWhereId]
      · simp only [List.head?_map, hfound, Option.map_some']
        rfl
      · intro t; rfl
    obtain ⟨d, hd, hds⟩ := getTransactionDetailsForEmail_some _ id _ hsel
      (by simpa [updateTransactionStatus, logReconciliationAttempt] using hsender)
      (by simpa [updateTransactionStatus, logReconciliationAttempt] using hreceiver)
    obtain ⟨delivered, htr⟩ := notify_trace_of_some env _ id (fun d => d) d hd
    refine ⟨d, delivered, hds, ?_⟩
    unfold notifications
    rw [since_append _ w
      [.db (.selectById id), .stripeRetrieve intent, .db (.selectStatus id),
       .db (.insertAttempt id),
       .db (.updateStatus id (mapStripeStatus pi tx.status).1 (mapStripeStatus pi tx.status).2),
       .db (.selectEmailDetails id), .sendMail d delivered]
      (by rw [htr]; simp)]
    rfl
  · intro hno
    by_cases hch : (mapStripeStatus pi tx.status).1 = tx.status
    · simp only [hch, ne_eq, not_true_eq_false, if_false]
      unfold notifications
      rw [since_append _ w
        [.db (.selectById id), .stripeRetrieve intent, .db (.selectStatus id),
         .db (.insertAttempt id)] (by simp)]
      rfl
    · have hn : ¬ (["successful", "failed"].contains (mapStripeStatus pi tx.status).1 = true) :=
        fun h => hno ⟨hch, h⟩
      simp only [ne_eq, hch, not_false_eq_true, if_true, hn, if_false]
      unfold notifications
      rw [since_append _ w
        [.db (.selectById id), .stripeRetrieve intent, .db (.selectStatus id),
         .db (.insertAttempt id),
         .db (.updateStatus id (mapStripeStatus pi tx.status).1
           (mapStripeStatus pi tx.status).2)] (by simp)]
      rfl

/-- C11 at the failing input. The pending `sampleTx` without intent id: the execution moves it
to failed and hands no mail to the transport; its only events are the read of the row and the
status update. On the sibling path, where the processor reports requires_payment_method for
the pending `sampleTx`, the move to failed is followed by one mail with status failed. -/
theorem no_intent_failure_not_notified :
    statusOf sampleWorldNoIntent 1 = some "pending" ∧
    statusOf (process sampleEnv sampleWorldNoIntent 1).1 1 = some "failed" ∧
    notifications (process sampleEnv sampleWorldNoIntent 1).1 sampleWorldNoIntent = [] ∧
    (process sampleEnv sampleWorldNoIntent 1).1.since sampleWorldNoIntent =
      [.db (.selectById 1), .db (.updateStatus 1 "failed" (some "No Stripe Intent ID"))] ∧
    statusOf (process decliningEnv sampleWorld 1).1 1 = some "failed" ∧
    notifications (process decliningEnv sampleWorld 1).1 sampleWorld =
      [.sendMail ⟨"1", 1000, "usd", "failed", 0, "Ann", "ann@example.com", "Bob"⟩ true] := by
  decide

/-- The attempt record the process handler writes when it consults the processor. After a
successful retrieval it holds the reported status, the status read at the start as "before",
and as "after" the status the row has when the record is written, which is before the status
update. After a retrieval that raised it holds no processor status, no "before" and the
error message. -/
theorem process_attempt_record (env : Env) (w : World) (id : Nat) (tx : Transaction)
    (intent : String)
    (hfound : (selectById id w.transactions).head? = some tx)
    (hopen : ["successful", "failed", "cancelled"].contains tx.status = false)
    (hintent : tx.stripe_intent_id = some intent) (hne : intent ≠ "")
    (hstatus : tx.status ≠ "") :
    (∀ pi, env.stripeRetrieve intent = .ok pi →
      (process env w id).1.attempts = w.attempts ++
        [⟨id, some pi.status, some tx.status, some tx.status, none, w.now⟩]) ∧
    (∀ e, env.stripeRetrieve intent = .error e →
      (process env w id).1.attempts = w.attempts ++
        [⟨id, none, none, some tx.status, some e, w.now⟩]) := by
  obtain ⟨rest, hsel⟩ := head?_eq_some_cons hfound
  have hb : (tx.status != "") = true := by simpa using hstatus
  have hlog : ∀ a b c, (logReconciliationAttempt
      ((w.emit (.db (.selectById id))).emit (.stripeRetrieve intent)) id a b c).attempts =
      w.attempts ++ [⟨id, a, b, some tx.status, c, w.now⟩] := by
    intro a b c
    simp [logReconciliationAttempt, hsel, hb]
  refine ⟨?_, ?_⟩
  · intro pi hret
    rw [process_retrieved env w id tx intent pi hfound hopen hintent hne hret]
    simp only
    split_ifs
    · simp only [notify_attempts, updateTransactionStatus_attempts]
      exact hlog _ _ _
    · simp only [updateTransactionStatus_attempts]
      exact hlog _ _ _
    · exact hlog _ _ _
  · intro e hret
    rw [process_retrieve_error env w id tx intent e hfound hopen hintent hne hret]
    exact hlog _ _ _

/-- C12 at the failing inputs. The execution that moves the pending `sampleTx` to successful
appends a record with before = pending and after = pending, not successful: the record is
written before the status update. The execution on which the retrieval raises appends a
record with no processor status and with before = null, not pending. -/
theorem attempt_record_written_before_update :
    statusOf sampleWorld 1 = some "pending" ∧
    statusOf (process sampleEnv sampleWorld 1).1 1 = some "successful" ∧
    (process sampleEnv sampleWorld 1).1.attempts =
      [⟨1, some "succeeded", some "pending", some "pending", none, 600000⟩] ∧
    statusOf (process failingEnv sampleWorld 1).1 1 = some "pending" ∧
    (process failingEnv sampleWorld 1).1.attempts =
      [⟨1, none, none, some "pending", some "processor unavailable", 600000⟩] := by
  decide

/-- The loop of the scan over candidates whose jobs the queue accepts: each gets one job with
the scan's options, in order, and the loop goes on with the rest. -/
theorem enqueueRows_accepted (env : Env) (pre rest : List Transaction) :
    ∀ (w : World), (∀ t ∈ pre, env.queueAdd t.transaction_id = .ok ()) →
    enqueueRows env w (pre ++ rest) =
      enqueueRows env
        { w with
          jobs := w.jobs ++ pre.map (fun t => ⟨t.transaction_id, reconciliationJobOptions, 0⟩)
          trace := w.trace ++
            pre.map (fun t => .queueAdd t.transaction_id reconciliationJobOptions true) }
        rest := by
  induction pre with
  | nil =>
    intro w _
    simp
  | cons t pre ih =>
    intro w hpre
    have ht : env.queueAdd t.transaction_id = .ok () := hpre t (by simp)
    have hrest : ∀ u ∈ pre, env.queueAdd u.transaction_id = .ok () :=
      fun u hu => hpre u (by simp [hu])
    simp only [List.cons_append, enqueueRows, ht]
    rw [show pre.append rest = pre ++ rest from rfl, ih _ hrest]
    simp [World.emit, List.append_assoc]

/-- C13, as amended. The scan enqueues its candidates in order until the queue refuses one:
the candidates before the first refused one each get one job, the refused one gets none, and
no enqueue is attempted for the candidates after it. If the queue refuses none, every
candidate gets one job. Every enqueue attempted carries 5 attempts and an exponential backoff
with delay 60000. -/
theorem scheduleReconciliation_stops_at_refusal (env : Env) (w : World) :
    (∀ pre refused post msg, selectStale w = pre ++ refused :: post →
      (∀ t ∈ pre, env.queueAdd t.transaction_id = .ok ()) →
      env.queueAdd refused.transaction_id = .error msg →
      (scheduleReconciliation env w).since w =
        .db .selectStale ::
          (pre.map (fun t => .queueAdd t.transaction_id reconciliationJobOptions true) ++
            [.queueAdd refused.transaction_id reconciliationJobOptions false]) ∧
      (scheduleReconciliation env w).jobs =
        w.jobs ++ pre.map (fun t => ⟨t.transaction_id, reconciliationJobOptions, 0⟩)) ∧
    ((∀ t ∈ selectStale w, env.queueAdd t.transaction_id = .ok ()) →
      (scheduleReconciliation env w).since w =
        .db .selectStale ::
          (selectStale w).map
            (fun t => .queueAdd t.transaction_id reconciliationJobOptions true) ∧
      (scheduleReconciliation env w).jobs =
        w.jobs ++ (selectStale w).map
          (fun t => ⟨t.transaction_id, reconciliationJobOptions, 0⟩)) ∧
    reconciliationJobOptions.attempts = 5 ∧
    reconciliationJobOptions.backoffType = "exponential" ∧
    reconciliationJobOptions.backoffDelay = 60000 := by
  have hsame : selectStale (w.emit (.db .selectStale)) = selectStale w := rfl
  refine ⟨?_, ?_, rfl, rfl, rfl⟩
  · intro pre refused post msg hrows hpre hrefused
    unfold scheduleReconciliation
    simp only [hsame, hrows]
    rw [enqueueRows_accepted env pre (refused :: post) _ hpre]
    simp only [enqueueRows, hrefused]
    refine ⟨since_append _ w _ ?_, rfl⟩
    simp [World.emit, List.append_assoc]
  · intro hall
    unfold scheduleReconciliation
    simp only [hsame]
    have h := enqueueRows_accepted env (selectStale w) [] (w.emit (.db .selectStale))
      (by simpa using hall)
    rw [List.append_nil] at h
    rw [h]
    simp only [enqueueRows]
    refine ⟨since_append _ w _ ?_, rfl⟩
    simp [World.emit, List.append_assoc]

/-- C13, as amended, at a concrete input: two stale candidates and a queue that refuses the
job of the first; the scan ends after that refusal with no job added. -/
theorem scheduleReconciliation_stops_at_refusal_witness :
    selectStale twoStaleWorld = [] ++ sampleTx :: [sampleTx2] ∧
    (scheduleReconciliation firstAddFailsEnv twoStaleWorld).since twoStaleWorld =
      [.db .selectStale, .queueAdd 1 reconciliationJobOptions false] ∧
    (scheduleReconciliation firstAddFailsEnv twoStaleWorld).jobs = [] :=
  ⟨by decide,
    ((scheduleReconciliation_stops_at_refusal firstAddFailsEnv twoStaleWorld).1
      [] sampleTx [sampleTx2] "queue refused the job" (by decide)
      (fun _ h => absurd h (List.not_mem_nil _)) rfl)⟩

/-- C13 as stated fails: the loop runs inside the one `try` of the function, so the error of
an enqueue ends the scan. `sampleTx` and `sampleTx2` are both candidates and the queue would
accept the job of `sampleTx2`, yet after the refusal of the job of `sampleTx` no enqueue is
attempted for `sampleTx2`. -/
theorem refusal_aborts_scan :
    selectStale twoStaleWorld = [sampleTx, sampleTx2] ∧
    firstAddFailsEnv.queueAdd sampleTx.transaction_id = .error "queue refused the job" ∧
    firstAddFailsEnv.queueAdd sampleTx2.transaction_id = .ok () ∧
    (scheduleReconciliation firstAddFailsEnv twoStaleWorld).since twoStaleWorld =
      [.db .selectStale, .queueAdd 1 reconciliationJobOptions false] ∧
    (scheduleReconciliation firstAddFailsEnv twoStaleWorld).jobs = [] :=
  ⟨by decide, rfl, rfl, by decide, by decide⟩

end Payments
